import Mathlib

/-!
Verification of the PAI repository specification.

Part I models the session orchestrator, process reaper and checkpoint
validator described in the spec (their code is not among the provided
source files, so they are modelled from the spec text; each definition
says so in its doc comment).

Part II embeds the pure logic of the Python sources that are provided:
scripts/validators/dgts-validator.py,
scripts/validators/zero-tolerance-validator.py and
skills/boss-ui-ux/scripts/compare_to_captured.py.  Regular-expression
matching and filesystem enumeration are taken as oracle parameters; all
surrounding control flow and data flow is translated directly from the
Python.
-/

namespace PAI

/-! ## Part I: the session orchestrator (modelled from the spec) -/

/-- Modelled from the spec: `SessionOutcome` is the result of one attempt,
one of `Succeeded(completionFlag, rawMetrics)`, `Failed(reason, exitCode?)`,
`TimedOut`.  The raw metrics and failure details play no role in the state
machine, so only the completion flag is carried. -/
inductive SessionOutcome where
  | Succeeded (completionFlag : Bool)
  | Failed
  | TimedOut
deriving DecidableEq, Repr

/-- A `Failed` or `TimedOut` outcome, the two recoverable attempt failures. -/
def SessionOutcome.isFail : SessionOutcome → Bool
  | .Succeeded _ => false
  | .Failed => true
  | .TimedOut => true

/-- Modelled from the spec: the terminal states of the orchestrator state
machine, `TERMINAL{ALL_PASSED | EXHAUSTED | FATAL}`. -/
inductive TerminalState where
  | ALL_PASSED
  | EXHAUSTED
  | FATAL
deriving DecidableEq, Repr

/-- Modelled from the spec: `RunConfig` carries `maxSessions` and
`checkpointInterval` (both positive integers; positivity is taken as a
hypothesis where a theorem needs it).  Workspace, manifest and timeout
fields do not influence the state machine and are left out. -/
structure RunConfig where
  maxSessions : Nat
  checkpointInterval : Nat
deriving DecidableEq, Repr

/-- Modelled from the spec: `SessionAttempt` record of one spawn — a
0-based sequence number, the retry count for that sequence number, and the
outcome recorded for it. -/
structure AttemptRecord where
  seq : Nat
  retry : Nat
  outcome : SessionOutcome
deriving DecidableEq, Repr

/-- Modelled from the spec: the mutable counters of `RunSummary` plus the
bookkeeping the testable properties talk about (advance count, checkpoint
invocations, reap invocations, checkpoint warnings) and the trace of
attempts performed. -/
structure Counters where
  attempted : Nat
  completed : Nat
  failed : Nat
  advanced : Nat
  checkpoints : Nat
  reaps : Nat
  warnings : Nat
  trace : List AttemptRecord
deriving DecidableEq, Repr

/-- The all-zero initial counters. -/
def Counters.init : Counters :=
  { attempted := 0, completed := 0, failed := 0, advanced := 0,
    checkpoints := 0, reaps := 0, warnings := 0, trace := [] }

/-- Modelled from the spec: the run result returned to the caller —
final state, the `RunSummary` counters, the completion flag and
`successRate = sessionsCompleted / sessionsAttempted` (0 when no sessions
were attempted). -/
structure RunResult where
  final : TerminalState
  sessionsAttempted : Nat
  sessionsCompleted : Nat
  sessionsFailed : Nat
  advancedCount : Nat
  checkpointCount : Nat
  reapCount : Nat
  warningCount : Nat
  completionFlag : Bool
  successRate : ℚ
  trace : List AttemptRecord
deriving DecidableEq, Repr

/-- Modelled from the spec: finalization of the run summary at loop exit,
including the division-safe success rate. -/
def finalize (final : TerminalState) (completionFlag : Bool) (st : Counters) : RunResult :=
  { final := final
    sessionsAttempted := st.attempted
    sessionsCompleted := st.completed
    sessionsFailed := st.failed
    advancedCount := st.advanced
    checkpointCount := st.checkpoints
    reapCount := st.reaps
    warningCount := st.warnings
    completionFlag := completionFlag
    successRate :=
      if st.attempted = 0 then 0 else (st.completed : ℚ) / (st.attempted : ℚ)
    trace := st.trace }

/-- Modelled from the spec: bookkeeping after every advance (once per
completed sequence number, success or exhausted-retry failure): invoke the
ProcessReaper, and every `checkpointInterval` advances, only while the
advanced count is strictly below `maxSessions`, invoke the
CheckpointValidator; a failing checkpoint is recorded as a warning and
alters nothing else.  `cp a` is the pass/fail result the external
CheckpointValidator would report at advance number `a`. -/
def afterAdvance (cfg : RunConfig) (cp : Nat → Bool) (st : Counters) : Counters :=
  let a := st.advanced + 1
  let st1 := { st with advanced := a, reaps := st.reaps + 1 }
  if a % cfg.checkpointInterval = 0 ∧ a < cfg.maxSessions then
    if cp a then
      { st1 with checkpoints := st1.checkpoints + 1 }
    else
      { st1 with checkpoints := st1.checkpoints + 1, warnings := st1.warnings + 1 }
  else st1

/-- Modelled from the spec: the orchestrator loop.  `oracle seq retry` is
the outcome ProcessRunner reports for the attempt at sequence number `seq`
and retry count `retry`.  On `Succeeded true` the loop performs the
advance bookkeeping for the completed sequence number and halts
`ALL_PASSED`; on `Succeeded false` it advances; on a failure it retries
while the retry count is below 2 and otherwise absorbs the failure and
advances; it exits `EXHAUSTED` when `seq` reaches `maxSessions`.  The
first argument is recursion fuel; the run entry point supplies enough fuel
that the fuel-out `FATAL` branch is unreachable (the theorems about
terminal states prove this). -/
def runLoop (cfg : RunConfig) (oracle : Nat → Nat → SessionOutcome) (cp : Nat → Bool) :
    Nat → Nat → Nat → Counters → RunResult
  | 0, _, _, st => finalize .FATAL false st
  | fuel + 1, seq, retry, st =>
    if seq < cfg.maxSessions then
      let st1 : Counters :=
        { st with
          attempted := if retry = 0 then st.attempted + 1 else st.attempted,
          trace := st.trace ++ [⟨seq, retry, oracle seq retry⟩] }
      match oracle seq retry with
      | .Succeeded true =>
          finalize .ALL_PASSED true
            (afterAdvance cfg cp { st1 with completed := st1.completed + 1 })
      | .Succeeded false =>
          runLoop cfg oracle cp fuel (seq + 1) 0
            (afterAdvance cfg cp { st1 with completed := st1.completed + 1 })
      | .Failed =>
          if retry < 2 then
            runLoop cfg oracle cp fuel seq (retry + 1) st1
          else
            runLoop cfg oracle cp fuel (seq + 1) 0
              (afterAdvance cfg cp { st1 with failed := st1.failed + 1 })
      | .TimedOut =>
          if retry < 2 then
            runLoop cfg oracle cp fuel seq (retry + 1) st1
          else
            runLoop cfg oracle cp fuel (seq + 1) 0
              (afterAdvance cfg cp { st1 with failed := st1.failed + 1 })
    else finalize .EXHAUSTED false st

/-- Fuel that always suffices for the loop: at most three attempts per
session slot. -/
def standardFuel (cfg : RunConfig) : Nat :=
  3 * cfg.maxSessions + 1

/-- Modelled from the spec: the orchestrator entry point.  The required
preconditions (workspace path exists, work-manifest path exists) are
checked before the loop starts; a violation fails immediately with a fatal
result and no sessions attempted. -/
def runOrchestrator (cfg : RunConfig) (oracle : Nat → Nat → SessionOutcome)
    (cp : Nat → Bool) (workspaceExists manifestExists : Bool) : RunResult :=
  if workspaceExists && manifestExists then
    runLoop cfg oracle cp (standardFuel cfg) 0 0 Counters.init
  else
    finalize .FATAL false Counters.init

/-- The spec's worked scenario, checked against the model:
`maxSessions = 3`, `checkpointInterval = 1`, outcomes
`[Failed, Failed, Succeeded(false)]` for sequence number 0 and
`[Succeeded(true)]` for sequence number 1 give 2 sessions attempted, two
checkpoint invocations and a completing run. -/
theorem spec_scenario_check :
    (runOrchestrator ⟨3, 1⟩
      (fun s r =>
        if s = 0 then (if r < 2 then .Failed else .Succeeded false)
        else .Succeeded true)
      (fun _ => true) true true).sessionsAttempted = 2 ∧
    (runOrchestrator ⟨3, 1⟩
      (fun s r =>
        if s = 0 then (if r < 2 then .Failed else .Succeeded false)
        else .Succeeded true)
      (fun _ => true) true true).checkpointCount = 2 ∧
    (runOrchestrator ⟨3, 1⟩
      (fun s r =>
        if s = 0 then (if r < 2 then .Failed else .Succeeded false)
        else .Succeeded true)
      (fun _ => true) true true).completionFlag = true := by decide

/-! ### Trace simulation

`Sim o N seq retry t f` says: started at sequence number `seq` with retry
count `retry`, the orchestrator loop performs exactly the attempts listed
in `t` and ends in terminal state `f`.  It mirrors the five transitions of
the state machine. -/

/-- The attempt trace and terminal state the state machine produces from a
given sequence number and retry count. -/
inductive Sim (o : Nat → Nat → SessionOutcome) (N : Nat) :
    Nat → Nat → List AttemptRecord → TerminalState → Prop where
  | exhausted {seq retry : Nat} (h : ¬ seq < N) :
      Sim o N seq retry [] .EXHAUSTED
  | passed {seq retry : Nat} (h : seq < N) (ho : o seq retry = .Succeeded true) :
      Sim o N seq retry [⟨seq, retry, .Succeeded true⟩] .ALL_PASSED
  | advance {seq retry : Nat} {t : List AttemptRecord} {f : TerminalState}
      (h : seq < N) (ho : o seq retry = .Succeeded false)
      (ht : Sim o N (seq + 1) 0 t f) :
      Sim o N seq retry (⟨seq, retry, .Succeeded false⟩ :: t) f
  | retryStep {seq retry : Nat} {t : List AttemptRecord} {f : TerminalState}
      (h : seq < N) (ho : (o seq retry).isFail = true) (hr : retry < 2)
      (ht : Sim o N seq (retry + 1) t f) :
      Sim o N seq retry (⟨seq, retry, o seq retry⟩ :: t) f
  | absorb {seq retry : Nat} {t : List AttemptRecord} {f : TerminalState}
      (h : seq < N) (ho : (o seq retry).isFail = true) (hr : ¬ retry < 2)
      (ht : Sim o N (seq + 1) 0 t f) :
      Sim o N seq retry (⟨seq, retry, o seq retry⟩ :: t) f

/-- Records that end a session slot: any success, or a failure whose retry
budget is exhausted. -/
def AttemptRecord.isEnder (rec : AttemptRecord) : Bool :=
  match rec.outcome with
  | .Succeeded _ => true
  | _ => decide (rec.retry = 2)

/-- Records that open a session slot (retry count 0). -/
def AttemptRecord.isStart (rec : AttemptRecord) : Bool :=
  decide (rec.retry = 0)

/-- Records counted as a succeeded session. -/
def AttemptRecord.isSucc (rec : AttemptRecord) : Bool :=
  match rec.outcome with
  | .Succeeded _ => true
  | _ => false

/-- Records counted as a failed (retry-exhausted) session. -/
def AttemptRecord.isExhFail (rec : AttemptRecord) : Bool :=
  rec.outcome.isFail && decide (rec.retry = 2)

theorem afterAdvance_trace (cfg : RunConfig) (cp : Nat → Bool) (st : Counters) :
    (afterAdvance cfg cp st).trace = st.trace := by
  simp only [afterAdvance]
  split
  · split <;> rfl
  · rfl

theorem afterAdvance_advanced (cfg : RunConfig) (cp : Nat → Bool) (st : Counters) :
    (afterAdvance cfg cp st).advanced = st.advanced + 1 := by
  simp only [afterAdvance]
  split
  · split <;> rfl
  · rfl

theorem afterAdvance_completed (cfg : RunConfig) (cp : Nat → Bool) (st : Counters) :
    (afterAdvance cfg cp st).completed = st.completed := by
  simp only [afterAdvance]
  split
  · split <;> rfl
  · rfl

theorem afterAdvance_attempted (cfg : RunConfig) (cp : Nat → Bool) (st : Counters) :
    (afterAdvance cfg cp st).attempted = st.attempted := by
  simp only [afterAdvance]
  split
  · split <;> rfl
  · rfl

theorem afterAdvance_failed (cfg : RunConfig) (cp : Nat → Bool) (st : Counters) :
    (afterAdvance cfg cp st).failed = st.failed := by
  simp only [afterAdvance]
  split
  · split <;> rfl
  · rfl

theorem afterAdvance_reaps (cfg : RunConfig) (cp : Nat → Bool) (st : Counters) :
    (afterAdvance cfg cp st).reaps = st.reaps + 1 := by
  simp only [afterAdvance]
  split
  · split <;> rfl
  · rfl

theorem afterAdvance_checkpoints (cfg : RunConfig) (cp : Nat → Bool) (st : Counters) :
    (afterAdvance cfg cp st).checkpoints
      = st.checkpoints +
        (if (st.advanced + 1) % cfg.checkpointInterval = 0
            ∧ st.advanced + 1 < cfg.maxSessions then 1 else 0) := by
  simp only [afterAdvance]
  split
  · split <;> simp_all
  · simp_all

theorem afterAdvance_warnings (cfg : RunConfig) (cp : Nat → Bool) (st : Counters) :
    (afterAdvance cfg cp st).warnings
      = st.warnings +
        (if ((st.advanced + 1) % cfg.checkpointInterval = 0
              ∧ st.advanced + 1 < cfg.maxSessions) ∧ cp (st.advanced + 1) = false
         then 1 else 0) := by
  simp only [afterAdvance]
  split
  · rename_i hg
    split
    · rename_i hcp
      simp [hg, hcp]
    · rename_i hcp
      simp only [Bool.not_eq_true] at hcp
      simp [hg, hcp]
  · rename_i hg
    simp [hg]

/-- The master correspondence between the executable loop and the `Sim`
trace relation: with sufficient fuel, the loop's result extends the
incoming trace by a `Sim` trace, its terminal state is the `Sim` terminal
state, and every counter of the result is the incoming counter plus the
corresponding count over the new trace. -/
theorem runLoop_sim (cfg : RunConfig) (o : Nat → Nat → SessionOutcome)
    (cp : Nat → Bool) :
    ∀ fuel seq retry st, retry ≤ 2 → 3 * (cfg.maxSessions - seq) - retry < fuel →
      ∃ t, (runLoop cfg o cp fuel seq retry st).trace = st.trace ++ t ∧
        Sim o cfg.maxSessions seq retry t (runLoop cfg o cp fuel seq retry st).final ∧
        (runLoop cfg o cp fuel seq retry st).advancedCount
          = st.advanced + t.countP (fun r => r.isEnder) ∧
        (runLoop cfg o cp fuel seq retry st).sessionsCompleted
          = st.completed + t.countP (fun r => r.isSucc) ∧
        (runLoop cfg o cp fuel seq retry st).sessionsAttempted
          = st.attempted + t.countP (fun r => r.isStart) ∧
        (runLoop cfg o cp fuel seq retry st).sessionsFailed
          = st.failed + t.countP (fun r => r.isExhFail) ∧
        (runLoop cfg o cp fuel seq retry st).reapCount
          = st.reaps + t.countP (fun r => r.isEnder) ∧
        (runLoop cfg o cp fuel seq retry st).completionFlag
          = decide ((runLoop cfg o cp fuel seq retry st).final = .ALL_PASSED) := by
  intro fuel
  induction fuel with
  | zero => intro seq retry st hr2 hf; omega
  | succ fuel ih =>
    intro seq retry st hr2 hf
    by_cases hseq : seq < cfg.maxSessions
    · cases ho : o seq retry with
      | Succeeded flag =>
        cases flag with
        | true =>
          have hrun : runLoop cfg o cp (fuel + 1) seq retry st
              = finalize .ALL_PASSED true
                (afterAdvance cfg cp
                  { st with
                    attempted := if retry = 0 then st.attempted + 1 else st.attempted,
                    completed := st.completed + 1,
                    trace := st.trace ++ [⟨seq, retry, .Succeeded true⟩] }) := by
            simp only [runLoop, hseq, if_true, ho]
          refine ⟨[⟨seq, retry, .Succeeded true⟩], ?_⟩
          rw [hrun]
          refine ⟨?_, Sim.passed hseq ho, ?_, ?_, ?_, ?_, ?_, ?_⟩ <;>
            simp [finalize, afterAdvance_trace, afterAdvance_advanced,
              afterAdvance_completed, afterAdvance_attempted, afterAdvance_failed,
              afterAdvance_reaps, AttemptRecord.isEnder, AttemptRecord.isSucc,
              AttemptRecord.isStart, AttemptRecord.isExhFail, SessionOutcome.isFail,
              List.countP_cons] <;>
            (try split) <;> (try simp) <;> omega
        | false =>
          have hrun : runLoop cfg o cp (fuel + 1) seq retry st
              = runLoop cfg o cp fuel (seq + 1) 0
                (afterAdvance cfg cp
                  { st with
                    attempted := if retry = 0 then st.attempted + 1 else st.attempted,
                    completed := st.completed + 1,
                    trace := st.trace ++ [⟨seq, retry, .Succeeded false⟩] }) := by
            simp only [runLoop, hseq, if_true, ho]
          have hf2 : 3 * (cfg.maxSessions - (seq + 1)) - 0 < fuel := by omega
          obtain ⟨t, htr, hsim, hadv, hcomp, hatt, hfail, hreap, hflag⟩ :=
            ih (seq + 1) 0
              (afterAdvance cfg cp
                { st with
                  attempted := if retry = 0 then st.attempted + 1 else st.attempted,
                  completed := st.completed + 1,
                  trace := st.trace ++ [⟨seq, retry, .Succeeded false⟩] }) (by omega) hf2
          refine ⟨⟨seq, retry, .Succeeded false⟩ :: t, ?_⟩
          rw [hrun, htr, hadv, hcomp, hatt, hfail, hreap]
          refine ⟨?_, Sim.advance hseq ho hsim, ?_, ?_, ?_, ?_, ?_, hflag⟩ <;>
            simp [afterAdvance_trace, afterAdvance_advanced, afterAdvance_completed,
              afterAdvance_attempted, afterAdvance_failed, afterAdvance_reaps,
              AttemptRecord.isEnder, AttemptRecord.isSucc, AttemptRecord.isStart,
              AttemptRecord.isExhFail, SessionOutcome.isFail, List.countP_cons] <;>
            (try split) <;> omega
      | Failed =>
        by_cases hr : retry < 2
        · have hrun : runLoop cfg o cp (fuel + 1) seq retry st
              = runLoop cfg o cp fuel seq (retry + 1)
                { st with
                  attempted := if retry = 0 then st.attempted + 1 else st.attempted,
                  trace := st.trace ++ [⟨seq, retry, .Failed⟩] } := by
            simp only [runLoop, hseq, if_true, if_false, ho, hr]
          have hf2 : 3 * (cfg.maxSessions - seq) - (retry + 1) < fuel := by omega
          obtain ⟨t, htr, hsim, hadv, hcomp, hatt, hfail, hreap, hflag⟩ :=
            ih seq (retry + 1)
              { st with
                attempted := if retry = 0 then st.attempted + 1 else st.attempted,
                trace := st.trace ++ [⟨seq, retry, .Failed⟩] } (by omega) hf2
          refine ⟨⟨seq, retry, .Failed⟩ :: t, ?_⟩
          have hsim2 : Sim o cfg.maxSessions seq retry
              (⟨seq, retry, .Failed⟩ :: t)
              (runLoop cfg o cp fuel seq (retry + 1)
                { st with
                  attempted := if retry = 0 then st.attempted + 1 else st.attempted,
                  trace := st.trace ++ [⟨seq, retry, .Failed⟩] }).final := by
            have := Sim.retryStep (o := o) (N := cfg.maxSessions) hseq
              (by simp [ho, SessionOutcome.isFail]) hr hsim
            rw [ho] at this
            exact this
          have hrne : ¬ retry = 2 := by omega
          rw [hrun, htr, hadv, hcomp, hatt, hfail, hreap]
          refine ⟨?_, hsim2, ?_, ?_, ?_, ?_, ?_, hflag⟩ <;>
            simp [AttemptRecord.isEnder, AttemptRecord.isSucc, AttemptRecord.isStart,
              AttemptRecord.isExhFail, SessionOutcome.isFail, List.countP_cons, hrne] <;>
            (try split) <;> omega
        · have hrun : runLoop cfg o cp (fuel + 1) seq retry st
              = runLoop cfg o cp fuel (seq + 1) 0
                (afterAdvance cfg cp
                  { st with
                    attempted := if retry = 0 then st.attempted + 1 else st.attempted,
                    failed := st.failed + 1,
                    trace := st.trace ++ [⟨seq, retry, .Failed⟩] }) := by
            simp only [runLoop, hseq, if_true, if_false, ho, hr]
          have hf2 : 3 * (cfg.maxSessions - (seq + 1)) - 0 < fuel := by omega
          obtain ⟨t, htr, hsim, hadv, hcomp, hatt, hfail, hreap, hflag⟩ :=
            ih (seq + 1) 0
              (afterAdvance cfg cp
                { st with
                  attempted := if retry = 0 then st.attempted + 1 else st.attempted,
                  failed := st.failed + 1,
                  trace := st.trace ++ [⟨seq, retry, .Failed⟩] }) (by omega) hf2
          refine ⟨⟨seq, retry, .Failed⟩ :: t, ?_⟩
          have hsim2 : Sim o cfg.maxSessions seq retry
              (⟨seq, retry, .Failed⟩ :: t)
              (runLoop cfg o cp fuel (seq + 1) 0
                (afterAdvance cfg cp
                  { st with
                    attempted := if retry = 0 then st.attempted + 1 else st.attempted,
                    failed := st.failed + 1,
                    trace := st.trace ++ [⟨seq, retry, .Failed⟩] })).final := by
            have := Sim.absorb (o := o) (N := cfg.maxSessions) hseq
              (by simp [ho, SessionOutcome.isFail]) hr hsim
            rw [ho] at this
            exact this
          have hrty : retry = 2 := by omega
          have h0 : ¬ retry = 0 := by omega
          rw [hrun, htr, hadv, hcomp, hatt, hfail, hreap]
          refine ⟨?_, hsim2, ?_, ?_, ?_, ?_, ?_, hflag⟩ <;>
            simp [afterAdvance_trace, afterAdvance_advanced, afterAdvance_completed,
              afterAdvance_attempted, afterAdvance_failed, afterAdvance_reaps,
              AttemptRecord.isEnder, AttemptRecord.isSucc, AttemptRecord.isStart,
              AttemptRecord.isExhFail, SessionOutcome.isFail, List.countP_cons,
              hrty, h0] <;>
            (try split) <;> omega
      | TimedOut =>
        by_cases hr : retry < 2
        · have hrun : runLoop cfg o cp (fuel + 1) seq retry st
              = runLoop cfg o cp fuel seq (retry + 1)
                { st with
                  attempted := if retry = 0 then st.attempted + 1 else st.attempted,
                  trace := st.trace ++ [⟨seq, retry, .TimedOut⟩] } := by
            simp only [runLoop, hseq, if_true, if_false, ho, hr]
          have hf2 : 3 * (cfg.maxSessions - seq) - (retry + 1) < fuel := by omega
          obtain ⟨t, htr, hsim, hadv, hcomp, hatt, hfail, hreap, hflag⟩ :=
            ih seq (retry + 1)
              { st with
                attempted := if retry = 0 then st.attempted + 1 else st.attempted,
                trace := st.trace ++ [⟨seq, retry, .TimedOut⟩] } (by omega) hf2
          refine ⟨⟨seq, retry, .TimedOut⟩ :: t, ?_⟩
          have hsim2 : Sim o cfg.maxSessions seq retry
              (⟨seq, retry, .TimedOut⟩ :: t)
              (runLoop cfg o cp fuel seq (retry + 1)
                { st with
                  attempted := if retry = 0 then st.attempted + 1 else st.attempted,
                  trace := st.trace ++ [⟨seq, retry, .TimedOut⟩] }).final := by
            have := Sim.retryStep (o := o) (N := cfg.maxSessions) hseq
              (by simp [ho, SessionOutcome.isFail]) hr hsim
            rw [ho] at this
            exact this
          have hrne : ¬ retry = 2 := by omega
          rw [hrun, htr, hadv, hcomp, hatt, hfail, hreap]
          refine ⟨?_, hsim2, ?_, ?_, ?_, ?_, ?_, hflag⟩ <;>
            simp [AttemptRecord.isEnder, AttemptRecord.isSucc, AttemptRecord.isStart,
              AttemptRecord.isExhFail, SessionOutcome.isFail, List.countP_cons, hrne] <;>
            (try split) <;> omega
        · have hrun : runLoop cfg o cp (fuel + 1) seq retry st
              = runLoop cfg o cp fuel (seq + 1) 0
                (afterAdvance cfg cp
                  { st with
                    attempted := if retry = 0 then st.attempted + 1 else st.attempted,
                    failed := st.failed + 1,
                    trace := st.trace ++ [⟨seq, retry, .TimedOut⟩] }) := by
            simp only [runLoop, hseq, if_true, if_false, ho, hr]
          have hf2 : 3 * (cfg.maxSessions - (seq + 1)) - 0 < fuel := by omega
          obtain ⟨t, htr, hsim, hadv, hcomp, hatt, hfail, hreap, hflag⟩ :=
            ih (seq + 1) 0
              (afterAdvance cfg cp
                { st with
                  attempted := if retry = 0 then st.attempted + 1 else st.attempted,
                  failed := st.failed + 1,
                  trace := st.trace ++ [⟨seq, retry, .TimedOut⟩] }) (by omega) hf2
          refine ⟨⟨seq, retry, .TimedOut⟩ :: t, ?_⟩
          have hsim2 : Sim o cfg.maxSessions seq retry
              (⟨seq, retry, .TimedOut⟩ :: t)
              (runLoop cfg o cp fuel (seq + 1) 0
                (afterAdvance cfg cp
                  { st with
                    attempted := if retry = 0 then st.attempted + 1 else st.attempted,
                    failed := st.failed + 1,
                    trace := st.trace ++ [⟨seq, retry, .TimedOut⟩] })).final := by
            have := Sim.absorb (o := o) (N := cfg.maxSessions) hseq
              (by simp [ho, SessionOutcome.isFail]) hr hsim
            rw [ho] at this
            exact this
          have hrty : retry = 2 := by omega
          have h0 : ¬ retry = 0 := by omega
          rw [hrun, htr, hadv, hcomp, hatt, hfail, hreap]
          refine ⟨?_, hsim2, ?_, ?_, ?_, ?_, ?_, hflag⟩ <;>
            simp [afterAdvance_trace, afterAdvance_advanced, afterAdvance_completed,
              afterAdvance_attempted, afterAdvance_failed, afterAdvance_reaps,
              AttemptRecord.isEnder, AttemptRecord.isSucc, AttemptRecord.isStart,
              AttemptRecord.isExhFail, SessionOutcome.isFail, List.countP_cons,
              hrty, h0] <;>
            (try split) <;> omega
    · have hrun : runLoop cfg o cp (fuel + 1) seq retry st
          = finalize .EXHAUSTED false st := by
        simp only [runLoop, hseq, if_false]
      refine ⟨[], ?_⟩
      rw [hrun]
      simp [finalize, Sim.exhausted hseq]

/-- A simulated run never ends in the `FATAL` state: only a precondition
violation or an uncaught exception can produce it. -/
theorem Sim.final_ne_fatal {o : Nat → Nat → SessionOutcome} {N seq retry : Nat}
    {t : List AttemptRecord} {f : TerminalState}
    (h : Sim o N seq retry t f) : f ≠ .FATAL := by
  induction h with
  | exhausted _ => simp
  | passed _ _ => simp
  | advance _ _ _ ih => exact ih
  | retryStep _ _ _ _ ih => exact ih
  | absorb _ _ _ _ ih => exact ih

/-- While the loop is running (`seq < N`), the simulated trace is nonempty
and starts with the attempt at the current sequence number and retry
count. -/
theorem Sim.head_eq {o : Nat → Nat → SessionOutcome} {N seq retry : Nat}
    {t : List AttemptRecord} {f : TerminalState}
    (h : Sim o N seq retry t f) (hseq : seq < N) :
    ∃ t', t = ⟨seq, retry, o seq retry⟩ :: t' := by
  cases h with
  | exhausted h => exact absurd hseq h
  | passed h ho => exact ⟨[], by rw [ho]⟩
  | advance h ho ht => exact ⟨_, by rw [ho]⟩
  | retryStep h ho hr ht => exact ⟨_, rfl⟩
  | absorb h ho hr ht => exact ⟨_, rfl⟩

/-- Retry counts recorded in a simulated trace never exceed 2. -/
theorem Sim.retry_le_two {o : Nat → Nat → SessionOutcome} {N : Nat} :
    ∀ {seq retry : Nat} {t : List AttemptRecord} {f : TerminalState},
      Sim o N seq retry t f → retry ≤ 2 → ∀ rec ∈ t, rec.retry ≤ 2 := by
  intro seq retry t f h
  induction h with
  | exhausted _ => intro _ rec hrec; simp at hrec
  | passed _ _ => intro h2 rec hrec; simp at hrec; simp [hrec]; omega
  | advance _ _ _ ih =>
    intro h2 rec hrec
    rcases List.mem_cons.mp hrec with hrec | hrec
    · simp [hrec]; omega
    · exact ih (by omega) rec hrec
  | retryStep _ _ hr _ ih =>
    intro h2 rec hrec
    rcases List.mem_cons.mp hrec with hrec | hrec
    · simp [hrec]; omega
    · exact ih (by omega) rec hrec
  | absorb _ _ _ _ ih =>
    intro h2 rec hrec
    rcases List.mem_cons.mp hrec with hrec | hrec
    · simp [hrec]; omega
    · exact ih (by omega) rec hrec

/-- If every attempt the worker can report fails, the simulated run is
`EXHAUSTED`, performs exactly one advance per remaining session slot, and
records no succeeded session. -/
theorem Sim.all_fail {o : Nat → Nat → SessionOutcome} {N : Nat}
    (hfail : ∀ s r, (o s r).isFail = true) :
    ∀ {seq retry : Nat} {t : List AttemptRecord} {f : TerminalState},
      Sim o N seq retry t f → retry ≤ 2 →
      f = .EXHAUSTED ∧ t.countP (fun r => r.isEnder) = N - seq ∧
        t.countP (fun r => r.isSucc) = 0 := by
  intro seq retry t f h
  induction h with
  | @exhausted seq1 retry1 hs =>
    intro _
    refine ⟨rfl, ?_, ?_⟩ <;> simp <;> omega
  | @passed seq1 retry1 hs ho =>
    intro _
    have hcon : (SessionOutcome.Succeeded true).isFail = true := by
      rw [← ho]; exact hfail seq1 retry1
    simp [SessionOutcome.isFail] at hcon
  | @advance seq1 retry1 t1 f1 hs ho ht ih =>
    intro _
    have hcon : (SessionOutcome.Succeeded false).isFail = true := by
      rw [← ho]; exact hfail seq1 retry1
    simp [SessionOutcome.isFail] at hcon
  | @retryStep seq1 retry1 t1 f1 hs ho hr ht ih =>
    intro h2
    obtain ⟨hf, hend, hsucc⟩ := ih (by omega)
    have hne : ¬ retry1 = 2 := by omega
    refine ⟨hf, ?_, ?_⟩
    · simp only [List.countP_cons, hend]
      have : AttemptRecord.isEnder ⟨seq1, retry1, o seq1 retry1⟩ = false := by
        have := hfail seq1 retry1
        rcases ho2 : o seq1 retry1 with ⟨flag⟩ | _ | _ <;>
          simp [ho2, SessionOutcome.isFail] at this ⊢ <;>
          simp [AttemptRecord.isEnder, ho2, hne]
      rw [this]
      simp
    · simp only [List.countP_cons, hsucc]
      have : AttemptRecord.isSucc ⟨seq1, retry1, o seq1 retry1⟩ = false := by
        have := hfail seq1 retry1
        rcases ho2 : o seq1 retry1 with ⟨flag⟩ | _ | _ <;>
          simp [ho2, SessionOutcome.isFail] at this ⊢ <;>
          simp [AttemptRecord.isSucc, ho2]
      rw [this]
      simp
  | @absorb seq1 retry1 t1 f1 hs ho hr ht ih =>
    intro h2
    obtain ⟨hf, hend, hsucc⟩ := ih (by omega)
    have hr2 : retry1 = 2 := by omega
    refine ⟨hf, ?_, ?_⟩
    · simp only [List.countP_cons, hend]
      have : AttemptRecord.isEnder ⟨seq1, retry1, o seq1 retry1⟩ = true := by
        have := hfail seq1 retry1
        rcases ho2 : o seq1 retry1 with ⟨flag⟩ | _ | _ <;>
          simp [ho2, SessionOutcome.isFail] at this ⊢ <;>
          simp [AttemptRecord.isEnder, ho2, hr2]
      rw [this]
      simp
      omega
    · simp only [List.countP_cons, hsucc]
      have : AttemptRecord.isSucc ⟨seq1, retry1, o seq1 retry1⟩ = false := by
        have := hfail seq1 retry1
        rcases ho2 : o seq1 retry1 with ⟨flag⟩ | _ | _ <;>
          simp [ho2, SessionOutcome.isFail] at this ⊢ <;>
          simp [AttemptRecord.isSucc, ho2]
      rw [this]
      simp

/-- If a simulated trace contains an attempt whose outcome is
`Succeeded true`, the run halts `ALL_PASSED`, that attempt is the last one
performed, and no earlier attempt reported completion. -/
theorem Sim.succ_true_halts {o : Nat → Nat → SessionOutcome} {N : Nat} :
    ∀ {seq retry : Nat} {t : List AttemptRecord} {f : TerminalState},
      Sim o N seq retry t f →
      (∃ rec ∈ t, rec.outcome = .Succeeded true) →
      f = .ALL_PASSED ∧
        (∃ rec, t.getLast? = some rec ∧ rec.outcome = .Succeeded true) ∧
        ∀ rec ∈ t.dropLast, rec.outcome ≠ .Succeeded true := by
  intro seq retry t f h
  induction h with
  | @exhausted seq1 retry1 hs => intro hex; simp at hex
  | @passed seq1 retry1 hs ho =>
    intro _
    exact ⟨rfl, ⟨_, rfl, rfl⟩, by simp⟩
  | @advance seq1 retry1 t1 f1 hs ho ht ih =>
    intro hex
    rcases hex with ⟨rec, hrec, hout⟩
    rcases List.mem_cons.mp hrec with hrec | hrec
    · rw [hrec] at hout; simp at hout
    · obtain ⟨hf, ⟨last, hlast, hlastout⟩, hdrop⟩ := ih ⟨rec, hrec, hout⟩
      rcases t1 with _ | ⟨x, xs⟩
      · simp at hrec
      · refine ⟨hf, ⟨last, ?_, hlastout⟩, ?_⟩
        · rw [List.getLast?_cons_cons]
          exact hlast
        · intro r hrm
          rw [List.dropLast_cons₂] at hrm
          rcases List.mem_cons.mp hrm with hrm | hrm
          · rw [hrm]; simp
          · exact hdrop r hrm
  | @retryStep seq1 retry1 t1 f1 hs ho hr ht ih =>
    intro hex
    rcases hex with ⟨rec, hrec, hout⟩
    have hofail : (o seq1 retry1) ≠ .Succeeded true := by
      intro hcon
      rw [hcon] at ho
      simp [SessionOutcome.isFail] at ho
    rcases List.mem_cons.mp hrec with hrec | hrec
    · rw [hrec] at hout
      exact absurd hout hofail
    · obtain ⟨hf, ⟨last, hlast, hlastout⟩, hdrop⟩ := ih ⟨rec, hrec, hout⟩
      rcases t1 with _ | ⟨x, xs⟩
      · simp at hrec
      · refine ⟨hf, ⟨last, ?_, hlastout⟩, ?_⟩
        · rw [List.getLast?_cons_cons]
          exact hlast
        · intro r hrm
          rw [List.dropLast_cons₂] at hrm
          rcases List.mem_cons.mp hrm with hrm | hrm
          · rw [hrm]
            exact hofail
          · exact hdrop r hrm
  | @absorb seq1 retry1 t1 f1 hs ho hr ht ih =>
    intro hex
    rcases hex with ⟨rec, hrec, hout⟩
    have hofail : (o seq1 retry1) ≠ .Succeeded true := by
      intro hcon
      rw [hcon] at ho
      simp [SessionOutcome.isFail] at ho
    rcases List.mem_cons.mp hrec with hrec | hrec
    · rw [hrec] at hout
      exact absurd hout hofail
    · obtain ⟨hf, ⟨last, hlast, hlastout⟩, hdrop⟩ := ih ⟨rec, hrec, hout⟩
      rcases t1 with _ | ⟨x, xs⟩
      · simp at hrec
      · refine ⟨hf, ⟨last, ?_, hlastout⟩, ?_⟩
        · rw [List.getLast?_cons_cons]
          exact hlast
        · intro r hrm
          rw [List.dropLast_cons₂] at hrm
          rcases List.mem_cons.mp hrm with hrm | hrm
          · rw [hrm]
            exact hofail
          · exact hdrop r hrm

/-- The number of checkpoint invocations performed once `a` advances have
happened: one for every advance count in `[1, a]` that is a multiple of
`checkpointInterval` and strictly below `maxSessions`. -/
def cpCount (cfg : RunConfig) (a : Nat) : Nat :=
  (List.range a).countP
    (fun i => decide ((i + 1) % cfg.checkpointInterval = 0 ∧ i + 1 < cfg.maxSessions))

/-- The number of checkpoint warnings recorded once `a` advances have
happened: the invoked checkpoints whose external validation failed. -/
def warnCount (cfg : RunConfig) (cp : Nat → Bool) (a : Nat) : Nat :=
  (List.range a).countP
    (fun i => decide (((i + 1) % cfg.checkpointInterval = 0 ∧ i + 1 < cfg.maxSessions)
      ∧ cp (i + 1) = false))

theorem cpCount_succ (cfg : RunConfig) (a : Nat) :
    cpCount cfg (a + 1)
      = cpCount cfg a
        + (if (a + 1) % cfg.checkpointInterval = 0 ∧ a + 1 < cfg.maxSessions
           then 1 else 0) := by
  simp only [cpCount, List.range_succ, List.countP_append, List.countP_cons,
    List.countP_nil]
  split <;> rename_i hg <;> simp only [decide_eq_true_eq] at hg <;> simp [hg]

theorem warnCount_succ (cfg : RunConfig) (cp : Nat → Bool) (a : Nat) :
    warnCount cfg cp (a + 1)
      = warnCount cfg cp a
        + (if ((a + 1) % cfg.checkpointInterval = 0 ∧ a + 1 < cfg.maxSessions)
              ∧ cp (a + 1) = false
           then 1 else 0) := by
  simp only [warnCount, List.range_succ, List.countP_append, List.countP_cons,
    List.countP_nil]
  split <;> rename_i hg <;> simp only [decide_eq_true_eq] at hg <;> simp [hg]

/-- Closed form for the checkpoint count: floor division of the advance
count by the interval, with the last slot excluded when the advance count
has reached `maxSessions`. -/
theorem cpCount_eq_div (cfg : RunConfig) (hK : 1 ≤ cfg.checkpointInterval) :
    ∀ a, a ≤ cfg.maxSessions →
      cpCount cfg a = min a (cfg.maxSessions - 1) / cfg.checkpointInterval := by
  intro a
  induction a with
  | zero => intro _; simp [cpCount]
  | succ a ih =>
    intro ha
    rw [cpCount_succ, ih (by omega)]
    by_cases hlt : a + 1 < cfg.maxSessions
    · have hmin1 : min a (cfg.maxSessions - 1) = a := by omega
      have hmin2 : min (a + 1) (cfg.maxSessions - 1) = a + 1 := by omega
      rw [hmin1, hmin2, Nat.succ_div]
      have hdvd : (a + 1) % cfg.checkpointInterval = 0 ↔ cfg.checkpointInterval ∣ (a + 1) :=
        Nat.dvd_iff_mod_eq_zero.symm
      by_cases hd : cfg.checkpointInterval ∣ (a + 1)
      · simp [hd, hdvd.mpr hd, hlt]
      · have : ¬ (a + 1) % cfg.checkpointInterval = 0 := fun hc => hd (hdvd.mp hc)
        simp [hd, this]
    · have ha1 : a + 1 = cfg.maxSessions := by omega
      have hmin1 : min a (cfg.maxSessions - 1) = a := by omega
      have hmin2 : min (a + 1) (cfg.maxSessions - 1) = a := by omega
      rw [hmin1, hmin2]
      simp [hlt]

/-- The checkpoint and warning counters of the loop: starting from
counters whose checkpoint and warning fields agree with `cpCount` and
`warnCount` at the current advance count, the final result agrees with
them at the final advance count, which never exceeds `maxSessions`. -/
theorem runLoop_checkpoints (cfg : RunConfig) (o : Nat → Nat → SessionOutcome)
    (cp : Nat → Bool) :
    ∀ fuel seq retry st, retry ≤ 2 → 3 * (cfg.maxSessions - seq) - retry < fuel →
      seq ≤ cfg.maxSessions → st.advanced = seq →
      st.checkpoints = cpCount cfg seq → st.warnings = warnCount cfg cp seq →
      (runLoop cfg o cp fuel seq retry st).advancedCount ≤ cfg.maxSessions ∧
      (runLoop cfg o cp fuel seq retry st).checkpointCount
        = cpCount cfg (runLoop cfg o cp fuel seq retry st).advancedCount ∧
      (runLoop cfg o cp fuel seq retry st).warningCount
        = warnCount cfg cp (runLoop cfg o cp fuel seq retry st).advancedCount := by
  intro fuel
  induction fuel with
  | zero => intro seq retry st hr2 hf; omega
  | succ fuel ih =>
    intro seq retry st hr2 hf hseqN hadv hcp hw
    by_cases hseq : seq < cfg.maxSessions
    · cases ho : o seq retry with
      | Succeeded flag =>
        cases flag with
        | true =>
          have hrun : runLoop cfg o cp (fuel + 1) seq retry st
              = finalize .ALL_PASSED true
                (afterAdvance cfg cp
                  { st with
                    attempted := if retry = 0 then st.attempted + 1 else st.attempted,
                    completed := st.completed + 1,
                    trace := st.trace ++ [⟨seq, retry, .Succeeded true⟩] }) := by
            simp only [runLoop, hseq, if_true, ho]
          rw [hrun]
          simp only [finalize, afterAdvance_advanced, afterAdvance_checkpoints,
            afterAdvance_warnings]
          simp only [hadv, hcp, hw]
          refine ⟨by omega, ?_, ?_⟩
          · rw [cpCount_succ]
          · rw [warnCount_succ]
        | false =>
          have hrun : runLoop cfg o cp (fuel + 1) seq retry st
              = runLoop cfg o cp fuel (seq + 1) 0
                (afterAdvance cfg cp
                  { st with
                    attempted := if retry = 0 then st.attempted + 1 else st.attempted,
                    completed := st.completed + 1,
                    trace := st.trace ++ [⟨seq, retry, .Succeeded false⟩] }) := by
            simp only [runLoop, hseq, if_true, ho]
          rw [hrun]
          refine ih (seq + 1) 0 _ (by omega) (by omega) (by omega) ?_ ?_ ?_
          · rw [afterAdvance_advanced]; simp [hadv]
          · rw [afterAdvance_checkpoints]
            simp only [hadv, hcp]
            rw [cpCount_succ]
          · rw [afterAdvance_warnings]
            simp only [hadv, hw]
            rw [warnCount_succ]
      | Failed =>
        by_cases hr : retry < 2
        · have hrun : runLoop cfg o cp (fuel + 1) seq retry st
              = runLoop cfg o cp fuel seq (retry + 1)
                { st with
                  attempted := if retry = 0 then st.attempted + 1 else st.attempted,
                  trace := st.trace ++ [⟨seq, retry, .Failed⟩] } := by
            simp only [runLoop, hseq, if_true, if_false, ho, hr]
          rw [hrun]
          exact ih seq (retry + 1) _ (by omega) (by omega) (by omega)
            (by simp [hadv]) (by simp [hcp]) (by simp [hw])
        · have hrun : runLoop cfg o cp (fuel + 1) seq retry st
              = runLoop cfg o cp fuel (seq + 1) 0
                (afterAdvance cfg cp
                  { st with
                    attempted := if retry = 0 then st.attempted + 1 else st.attempted,
                    failed := st.failed + 1,
                    trace := st.trace ++ [⟨seq, retry, .Failed⟩] }) := by
            simp only [runLoop, hseq, if_true, if_false, ho, hr]
          rw [hrun]
          refine ih (seq + 1) 0 _ (by omega) (by omega) (by omega) ?_ ?_ ?_
          · rw [afterAdvance_advanced]; simp [hadv]
          · rw [afterAdvance_checkpoints]
            simp only [hadv, hcp]
            rw [cpCount_succ]
          · rw [afterAdvance_warnings]
            simp only [hadv, hw]
            rw [warnCount_succ]
      | TimedOut =>
        by_cases hr : retry < 2
        · have hrun : runLoop cfg o cp (fuel + 1) seq retry st
              = runLoop cfg o cp fuel seq (retry + 1)
                { st with
                  attempted := if retry = 0 then st.attempted + 1 else st.attempted,
                  trace := st.trace ++ [⟨seq, retry, .TimedOut⟩] } := by
            simp only [runLoop, hseq, if_true, if_false, ho, hr]
          rw [hrun]
          exact ih seq (retry + 1) _ (by omega) (by omega) (by omega)
            (by simp [hadv]) (by simp [hcp]) (by simp [hw])
        · have hrun : runLoop cfg o cp (fuel + 1) seq retry st
              = runLoop cfg o cp fuel (seq + 1) 0
                (afterAdvance cfg cp
                  { st with
                    attempted := if retry = 0 then st.attempted + 1 else st.attempted,
                    failed := st.failed + 1,
                    trace := st.trace ++ [⟨seq, retry, .TimedOut⟩] }) := by
            simp only [runLoop, hseq, if_true, if_false, ho, hr]
          rw [hrun]
          refine ih (seq + 1) 0 _ (by omega) (by omega) (by omega) ?_ ?_ ?_
          · rw [afterAdvance_advanced]; simp [hadv]
          · rw [afterAdvance_checkpoints]
            simp only [hadv, hcp]
            rw [cpCount_succ]
          · rw [afterAdvance_warnings]
            simp only [hadv, hw]
            rw [warnCount_succ]
    · have hrun : runLoop cfg o cp (fuel + 1) seq retry st
          = finalize .EXHAUSTED false st := by
        simp only [runLoop, hseq, if_false]
      rw [hrun]
      simp only [finalize]
      exact ⟨by omega, by rw [hadv, hcp], by rw [hadv, hw]⟩

/-- Counters equal in every field except the checkpoint-warning counter. -/
def EqExceptWarn (st st2 : Counters) : Prop :=
  st.attempted = st2.attempted ∧ st.completed = st2.completed ∧
  st.failed = st2.failed ∧ st.advanced = st2.advanced ∧
  st.checkpoints = st2.checkpoints ∧ st.reaps = st2.reaps ∧ st.trace = st2.trace

/-- Run results equal in every field except the warning counter. -/
def ResultEqExceptWarn (R R2 : RunResult) : Prop :=
  R.final = R2.final ∧ R.sessionsAttempted = R2.sessionsAttempted ∧
  R.sessionsCompleted = R2.sessionsCompleted ∧ R.sessionsFailed = R2.sessionsFailed ∧
  R.advancedCount = R2.advancedCount ∧ R.checkpointCount = R2.checkpointCount ∧
  R.reapCount = R2.reapCount ∧ R.completionFlag = R2.completionFlag ∧
  R.successRate = R2.successRate ∧ R.trace = R2.trace

theorem afterAdvance_eqExceptWarn (cfg : RunConfig) (cp cp2 : Nat → Bool)
    {st st2 : Counters} (h : EqExceptWarn st st2) :
    EqExceptWarn (afterAdvance cfg cp st) (afterAdvance cfg cp2 st2) := by
  obtain ⟨h1, h2, h3, h4, h5, h6, h7⟩ := h
  refine ⟨?_, ?_, ?_, ?_, ?_, ?_, ?_⟩
  · rw [afterAdvance_attempted, afterAdvance_attempted, h1]
  · rw [afterAdvance_completed, afterAdvance_completed, h2]
  · rw [afterAdvance_failed, afterAdvance_failed, h3]
  · rw [afterAdvance_advanced, afterAdvance_advanced, h4]
  · rw [afterAdvance_checkpoints, afterAdvance_checkpoints, h5, h4]
  · rw [afterAdvance_reaps, afterAdvance_reaps, h6]
  · rw [afterAdvance_trace, afterAdvance_trace, h7]

theorem finalize_eqExceptWarn (f : TerminalState) (b : Bool)
    {st st2 : Counters} (h : EqExceptWarn st st2) :
    ResultEqExceptWarn (finalize f b st) (finalize f b st2) := by
  obtain ⟨h1, h2, h3, h4, h5, h6, h7⟩ := h
  refine ⟨rfl, h1, h2, h3, h4, h5, h6, rfl, ?_, h7⟩
  simp only [finalize, h1, h2]

/-- The checkpoint oracle never alters the state machine: two runs that
differ only in the external checkpoint's pass/fail results agree on the
terminal state, the trace and every counter except the warning counter. -/
theorem runLoop_cp_irrelevant (cfg : RunConfig) (o : Nat → Nat → SessionOutcome)
    (cp cp2 : Nat → Bool) :
    ∀ fuel seq retry st st2, EqExceptWarn st st2 →
      ResultEqExceptWarn (runLoop cfg o cp fuel seq retry st)
        (runLoop cfg o cp2 fuel seq retry st2) := by
  intro fuel
  induction fuel with
  | zero =>
    intro seq retry st st2 h
    exact finalize_eqExceptWarn _ _ h
  | succ fuel ih =>
    intro seq retry st st2 h
    obtain ⟨h1, h2, h3, h4, h5, h6, h7⟩ := h
    by_cases hseq : seq < cfg.maxSessions
    · cases ho : o seq retry with
      | Succeeded flag =>
        cases flag with
        | true =>
          have hrun : runLoop cfg o cp (fuel + 1) seq retry st
              = finalize .ALL_PASSED true
                (afterAdvance cfg cp
                  { st with
                    attempted := if retry = 0 then st.attempted + 1 else st.attempted,
                    completed := st.completed + 1,
                    trace := st.trace ++ [⟨seq, retry, .Succeeded true⟩] }) := by
            simp only [runLoop, hseq, if_true, ho]
          have hrun2 : runLoop cfg o cp2 (fuel + 1) seq retry st2
              = finalize .ALL_PASSED true
                (afterAdvance cfg cp2
                  { st2 with
                    attempted := if retry = 0 then st2.attempted + 1 else st2.attempted,
                    completed := st2.completed + 1,
                    trace := st2.trace ++ [⟨seq, retry, .Succeeded true⟩] }) := by
            simp only [runLoop, hseq, if_true, ho]
          rw [hrun, hrun2]
          exact finalize_eqExceptWarn _ _
            (afterAdvance_eqExceptWarn _ _ _
              ⟨by simp [h1], by simp [h2], h3, h4, h5, h6, by simp [h7]⟩)
        | false =>
          have hrun : runLoop cfg o cp (fuel + 1) seq retry st
              = runLoop cfg o cp fuel (seq + 1) 0
                (afterAdvance cfg cp
                  { st with
                    attempted := if retry = 0 then st.attempted + 1 else st.attempted,
                    completed := st.completed + 1,
                    trace := st.trace ++ [⟨seq, retry, .Succeeded false⟩] }) := by
            simp only [runLoop, hseq, if_true, ho]
          have hrun2 : runLoop cfg o cp2 (fuel + 1) seq retry st2
              = runLoop cfg o cp2 fuel (seq + 1) 0
                (afterAdvance cfg cp2
                  { st2 with
                    attempted := if retry = 0 then st2.attempted + 1 else st2.attempted,
                    completed := st2.completed + 1,
                    trace := st2.trace ++ [⟨seq, retry, .Succeeded false⟩] }) := by
            simp only [runLoop, hseq, if_true, ho]
          rw [hrun, hrun2]
          exact ih (seq + 1) 0 _ _
            (afterAdvance_eqExceptWarn _ _ _
              ⟨by simp [h1], by simp [h2], h3, h4, h5, h6, by simp [h7]⟩)
      | Failed =>
        by_cases hr : retry < 2
        · have hrun : runLoop cfg o cp (fuel + 1) seq retry st
              = runLoop cfg o cp fuel seq (retry + 1)
                { st with
                  attempted := if retry = 0 then st.attempted + 1 else st.attempted,
                  trace := st.trace ++ [⟨seq, retry, .Failed⟩] } := by
            simp only [runLoop, hseq, if_true, if_false, ho, hr]
          have hrun2 : runLoop cfg o cp2 (fuel + 1) seq retry st2
              = runLoop cfg o cp2 fuel seq (retry + 1)
                { st2 with
                  attempted := if retry = 0 then st2.attempted + 1 else st2.attempted,
                  trace := st2.trace ++ [⟨seq, retry, .Failed⟩] } := by
            simp only [runLoop, hseq, if_true, if_false, ho, hr]
          rw [hrun, hrun2]
          exact ih seq (retry + 1) _ _
            ⟨by simp [h1], h2, h3, h4, h5, h6, by simp [h7]⟩
        · have hrun : runLoop cfg o cp (fuel + 1) seq retry st
              = runLoop cfg o cp fuel (seq + 1) 0
                (afterAdvance cfg cp
                  { st with
                    attempted := if retry = 0 then st.attempted + 1 else st.attempted,
                    failed := st.failed + 1,
                    trace := st.trace ++ [⟨seq, retry, .Failed⟩] }) := by
            simp only [runLoop, hseq, if_true, if_false, ho, hr]
          have hrun2 : runLoop cfg o cp2 (fuel + 1) seq retry st2
              = runLoop cfg o cp2 fuel (seq + 1) 0
                (afterAdvance cfg cp2
                  { st2 with
                    attempted := if retry = 0 then st2.attempted + 1 else st2.attempted,
                    failed := st2.failed + 1,
                    trace := st2.trace ++ [⟨seq, retry, .Failed⟩] }) := by
            simp only [runLoop, hseq, if_true, if_false, ho, hr]
          rw [hrun, hrun2]
          exact ih (seq + 1) 0 _ _
            (afterAdvance_eqExceptWarn _ _ _
              ⟨by simp [h1], h2, by simp [h3], h4, h5, h6, by simp [h7]⟩)
      | TimedOut =>
        by_cases hr : retry < 2
        · have hrun : runLoop cfg o cp (fuel + 1) seq retry st
              = runLoop cfg o cp fuel seq (retry + 1)
                { st with
                  attempted := if retry = 0 then st.attempted + 1 else st.attempted,
                  trace := st.trace ++ [⟨seq, retry, .TimedOut⟩] } := by
            simp only [runLoop, hseq, if_true, if_false, ho, hr]
          have hrun2 : runLoop cfg o cp2 (fuel + 1) seq retry st2
              = runLoop cfg o cp2 fuel seq (retry + 1)
                { st2 with
                  attempted := if retry = 0 then st2.attempted + 1 else st2.attempted,
                  trace := st2.trace ++ [⟨seq, retry, .TimedOut⟩] } := by
            simp only [runLoop, hseq, if_true, if_false, ho, hr]
          rw [hrun, hrun2]
          exact ih seq (retry + 1) _ _
            ⟨by simp [h1], h2, h3, h4, h5, h6, by simp [h7]⟩
        · have hrun : runLoop cfg o cp (fuel + 1) seq retry st
              = runLoop cfg o cp fuel (seq + 1) 0
                (afterAdvance cfg cp
                  { st with
                    attempted := if retry = 0 then st.attempted + 1 else st.attempted,
                    failed := st.failed + 1,
                    trace := st.trace ++ [⟨seq, retry, .TimedOut⟩] }) := by
            simp only [runLoop, hseq, if_true, if_false, ho, hr]
          have hrun2 : runLoop cfg o cp2 (fuel + 1) seq retry st2
              = runLoop cfg o cp2 fuel (seq + 1) 0
                (afterAdvance cfg cp2
                  { st2 with
                    attempted := if retry = 0 then st2.attempted + 1 else st2.attempted,
                    failed := st2.failed + 1,
                    trace := st2.trace ++ [⟨seq, retry, .TimedOut⟩] }) := by
            simp only [runLoop, hseq, if_true, if_false, ho, hr]
          rw [hrun, hrun2]
          exact ih (seq + 1) 0 _ _
            (afterAdvance_eqExceptWarn _ _ _
              ⟨by simp [h1], h2, by simp [h3], h4, h5, h6, by simp [h7]⟩)
    · have hrun : runLoop cfg o cp (fuel + 1) seq retry st
          = finalize .EXHAUSTED false st := by
        simp only [runLoop, hseq, if_false]
      have hrun2 : runLoop cfg o cp2 (fuel + 1) seq retry st2
          = finalize .EXHAUSTED false st2 := by
        simp only [runLoop, hseq, if_false]
      rw [hrun, hrun2]
      exact finalize_eqExceptWarn _ _ ⟨h1, h2, h3, h4, h5, h6, h7⟩

/-- Every exit of the loop goes through `finalize`: the success rate of
any run result therefore satisfies the division-safe formula. -/
theorem runLoop_is_finalize (cfg : RunConfig) (o : Nat → Nat → SessionOutcome)
    (cp : Nat → Bool) :
    ∀ fuel seq retry st, ∃ f b st2,
      runLoop cfg o cp fuel seq retry st = finalize f b st2 := by
  intro fuel
  induction fuel with
  | zero => intro seq retry st; exact ⟨.FATAL, false, st, rfl⟩
  | succ fuel ih =>
    intro seq retry st
    by_cases hseq : seq < cfg.maxSessions
    · cases ho : o seq retry with
      | Succeeded flag =>
        cases flag with
        | true =>
          refine ⟨.ALL_PASSED, true,
            afterAdvance cfg cp
              { st with
                attempted := if retry = 0 then st.attempted + 1 else st.attempted,
                completed := st.completed + 1,
                trace := st.trace ++ [⟨seq, retry, .Succeeded true⟩] }, ?_⟩
          simp only [runLoop, hseq, if_true, ho]
        | false =>
          have hrun : runLoop cfg o cp (fuel + 1) seq retry st
              = runLoop cfg o cp fuel (seq + 1) 0
                (afterAdvance cfg cp
                  { st with
                    attempted := if retry = 0 then st.attempted + 1 else st.attempted,
                    completed := st.completed + 1,
                    trace := st.trace ++ [⟨seq, retry, .Succeeded false⟩] }) := by
            simp only [runLoop, hseq, if_true, ho]
          rw [hrun]
          exact ih (seq + 1) 0 _
      | Failed =>
        by_cases hr : retry < 2
        · have hrun : runLoop cfg o cp (fuel + 1) seq retry st
              = runLoop cfg o cp fuel seq (retry + 1)
                { st with
                  attempted := if retry = 0 then st.attempted + 1 else st.attempted,
                  trace := st.trace ++ [⟨seq, retry, .Failed⟩] } := by
            simp only [runLoop, hseq, if_true, if_false, ho, hr]
          rw [hrun]
          exact ih seq (retry + 1) _
        · have hrun : runLoop cfg o cp (fuel + 1) seq retry st
              = runLoop cfg o cp fuel (seq + 1) 0
                (afterAdvance cfg cp
                  { st with
                    attempted := if retry = 0 then st.attempted + 1 else st.attempted,
                    failed := st.failed + 1,
                    trace := st.trace ++ [⟨seq, retry, .Failed⟩] }) := by
            simp only [runLoop, hseq, if_true, if_false, ho, hr]
          rw [hrun]
          exact ih (seq + 1) 0 _
      | TimedOut =>
        by_cases hr : retry < 2
        · have hrun : runLoop cfg o cp (fuel + 1) seq retry st
              = runLoop cfg o cp fuel seq (retry + 1)
                { st with
                  attempted := if retry = 0 then st.attempted + 1 else st.attempted,
                  trace := st.trace ++ [⟨seq, retry, .TimedOut⟩] } := by
            simp only [runLoop, hseq, if_true, if_false, ho, hr]
          rw [hrun]
          exact ih seq (retry + 1) _
        · have hrun : runLoop cfg o cp (fuel + 1) seq retry st
              = runLoop cfg o cp fuel (seq + 1) 0
                (afterAdvance cfg cp
                  { st with
                    attempted := if retry = 0 then st.attempted + 1 else st.attempted,
                    failed := st.failed + 1,
                    trace := st.trace ++ [⟨seq, retry, .TimedOut⟩] }) := by
            simp only [runLoop, hseq, if_true, if_false, ho, hr]
          rw [hrun]
          exact ih (seq + 1) 0 _
    · refine ⟨.EXHAUSTED, false, st, ?_⟩
      simp only [runLoop, hseq, if_false]

/-- The head of a nonempty simulated trace carries the current sequence
number and retry count, and the loop guard held. -/
theorem Sim.cons_head {o : Nat → Nat → SessionOutcome} {N s r : Nat}
    {x : AttemptRecord} {xs : List AttemptRecord} {f : TerminalState}
    (h : Sim o N s r (x :: xs) f) :
    x.seq = s ∧ x.retry = r ∧ s < N := by
  cases h <;> simp_all

/-- The retry discipline along a simulated trace: a failing attempt with
retry budget left is immediately re-run at the same sequence number with
the retry count incremented; a failing attempt at the retry cap is
followed, if by anything, by the next sequence number at retry count 0. -/
theorem Sim.fail_step {o : Nat → Nat → SessionOutcome} {N : Nat} :
    ∀ {seq retry : Nat} {t : List AttemptRecord} {f : TerminalState},
      Sim o N seq retry t f → retry ≤ 2 →
      ∀ i a, t[i]? = some a → a.outcome.isFail = true →
        ((a.retry < 2 →
            ∃ b, t[i+1]? = some b ∧ b.seq = a.seq ∧ b.retry = a.retry + 1) ∧
         (a.retry = 2 →
            ∀ b, t[i+1]? = some b → b.seq = a.seq + 1 ∧ b.retry = 0)) := by
  intro seq retry t f h
  induction h with
  | @exhausted seq1 retry1 hs =>
    intro _ i a ha
    simp at ha
  | @passed seq1 retry1 hs ho =>
    intro _ i a ha hafail
    cases i with
    | zero =>
      rw [List.getElem?_cons_zero] at ha
      injection ha with ha
      rw [← ha] at hafail
      simp [SessionOutcome.isFail] at hafail
    | succ i =>
      rw [List.getElem?_cons_succ, List.getElem?_nil] at ha
      exact absurd ha (by simp)
  | @advance seq1 retry1 t1 f1 hs ho ht ih =>
    intro h2 i a ha hafail
    cases i with
    | zero =>
      rw [List.getElem?_cons_zero] at ha
      injection ha with ha
      rw [← ha] at hafail
      simp [SessionOutcome.isFail] at hafail
    | succ i =>
      rw [List.getElem?_cons_succ] at ha
      have := ih (by omega) i a ha hafail
      refine ⟨?_, ?_⟩
      · intro hlt
        obtain ⟨b, hb, hbs, hbr⟩ := this.1 hlt
        exact ⟨b, by rw [List.getElem?_cons_succ]; exact hb, hbs, hbr⟩
      · intro heq b hb
        rw [List.getElem?_cons_succ] at hb
        exact this.2 heq b hb
  | @retryStep seq1 retry1 t1 f1 hs ho hr ht ih =>
    intro h2 i a ha hafail
    cases i with
    | zero =>
      rw [List.getElem?_cons_zero] at ha
      injection ha with ha
      refine ⟨?_, ?_⟩
      · intro _
        rcases t1 with _ | ⟨x, xs⟩
        · cases ht with
          | exhausted hcon => exact absurd hs hcon
        · obtain ⟨hxs, hxr, _⟩ := Sim.cons_head ht
          refine ⟨x, ?_, ?_, ?_⟩
          · rw [List.getElem?_cons_succ, List.getElem?_cons_zero]
          · rw [hxs, ← ha]
          · rw [hxr, ← ha]
      · intro heq
        rw [← ha] at heq
        simp at heq
        omega
    | succ i =>
      rw [List.getElem?_cons_succ] at ha
      have := ih (by omega) i a ha hafail
      refine ⟨?_, ?_⟩
      · intro hlt
        obtain ⟨b, hb, hbs, hbr⟩ := this.1 hlt
        exact ⟨b, by rw [List.getElem?_cons_succ]; exact hb, hbs, hbr⟩
      · intro heq b hb
        rw [List.getElem?_cons_succ] at hb
        exact this.2 heq b hb
  | @absorb seq1 retry1 t1 f1 hs ho hr ht ih =>
    intro h2 i a ha hafail
    cases i with
    | zero =>
      rw [List.getElem?_cons_zero] at ha
      injection ha with ha
      refine ⟨?_, ?_⟩
      · intro hlt
        rw [← ha] at hlt
        simp at hlt
        omega
      · intro _ b hb
        rw [List.getElem?_cons_succ] at hb
        rcases t1 with _ | ⟨x, xs⟩
        · rw [List.getElem?_nil] at hb
          exact absurd hb (by simp)
        · rw [List.getElem?_cons_zero] at hb
          injection hb with hb
          obtain ⟨hxs, hxr, _⟩ := Sim.cons_head ht
          rw [← hb]
          exact ⟨by rw [hxs, ← ha], by rw [hxr]⟩
    | succ i =>
      rw [List.getElem?_cons_succ] at ha
      have := ih (by omega) i a ha hafail
      refine ⟨?_, ?_⟩
      · intro hlt
        obtain ⟨b, hb, hbs, hbr⟩ := this.1 hlt
        exact ⟨b, by rw [List.getElem?_cons_succ]; exact hb, hbs, hbr⟩
      · intro heq b hb
        rw [List.getElem?_cons_succ] at hb
        exact this.2 heq b hb

/-- Each session slot yields at most one succeeded session: the number of
succeeded records never exceeds the number of slot-opening records (plus
the slot already in progress when the simulation starts mid-retry). -/
theorem Sim.succ_le_start {o : Nat → Nat → SessionOutcome} {N : Nat} :
    ∀ {seq retry : Nat} {t : List AttemptRecord} {f : TerminalState},
      Sim o N seq retry t f →
      t.countP (fun r => r.isSucc)
        ≤ t.countP (fun r => r.isStart) + (if retry = 0 then 0 else 1) := by
  intro seq retry t f h
  induction h with
  | @exhausted seq1 retry1 hs => simp
  | @passed seq1 retry1 hs ho =>
    simp [List.countP_cons, AttemptRecord.isSucc, AttemptRecord.isStart]
    by_cases h0 : retry1 = 0 <;> simp [h0]
  | @advance seq1 retry1 t1 f1 hs ho ht ih =>
    simp only [List.countP_cons, AttemptRecord.isSucc, AttemptRecord.isStart] at ih ⊢
    simp at ih
    by_cases h0 : retry1 = 0 <;> simp [h0] <;> omega
  | @retryStep seq1 retry1 t1 f1 hs ho hr ht ih =>
    have hne : ¬ retry1 + 1 = 0 := by omega
    simp only [hne, if_false] at ih
    have hfl : AttemptRecord.isSucc ⟨seq1, retry1, o seq1 retry1⟩ = false := by
      rcases ho2 : o seq1 retry1 with ⟨flag⟩ | _ | _
      · rw [ho2] at ho; simp [SessionOutcome.isFail] at ho
      · simp [AttemptRecord.isSucc, ho2]
      · simp [AttemptRecord.isSucc, ho2]
    have hst : AttemptRecord.isStart ⟨seq1, retry1, o seq1 retry1⟩
        = decide (retry1 = 0) := rfl
    simp only [List.countP_cons, hfl, hst]
    by_cases h0 : retry1 = 0 <;> simp [h0] <;> omega
  | @absorb seq1 retry1 t1 f1 hs ho hr ht ih =>
    have hne : ¬ retry1 = 0 := by omega
    simp at ih
    have hfl : AttemptRecord.isSucc ⟨seq1, retry1, o seq1 retry1⟩ = false := by
      rcases ho2 : o seq1 retry1 with ⟨flag⟩ | _ | _
      · rw [ho2] at ho; simp [SessionOutcome.isFail] at ho
      · simp [AttemptRecord.isSucc, ho2]
      · simp [AttemptRecord.isSucc, ho2]
    have hst : AttemptRecord.isStart ⟨seq1, retry1, o seq1 retry1⟩
        = decide (retry1 = 0) := rfl
    simp only [List.countP_cons, hfl, hst]
    simp [hne]
    omega

/-! ### The process reaper (modelled from the spec) -/

/-- Modelled from the spec: the two process-termination primitives the
host platform offers.  The safety invariant says the reaper only ever
uses termination by identifier, never the blanket kill-by-name. -/
inductive ReapAction where
  | killByIdentifier (pid : Nat)
  | killAllByName (name : String)
deriving DecidableEq, Repr

/-- Containment of one character list in another, used for the
case-insensitive signature match. -/
def containsSublist (needle : List Char) : List Char → Bool
  | [] => needle.isEmpty
  | c :: rest => needle.isPrefixOf (c :: rest) || containsSublist needle rest

/-- Modelled from the spec: a process is a reap candidate when its command
name contains, case-insensitively, any configured signature substring. -/
def matchesSignature (signatures : List String) (name : String) : Bool :=
  signatures.any (fun sig =>
    containsSublist (sig.toList.map Char.toLower) (name.toList.map Char.toLower))

/-- Modelled from the spec: `reap(signatures)` lists the running processes
as (command name, identifier) pairs, selects the candidates matching a
signature, terminates each candidate individually by its own identifier
(never issuing a kill-by-name), swallows per-identifier termination
failures (`killOk pid = false`), and returns only a count of processes
cleaned. -/
def reap (signatures : List String) (processes : List (String × Nat))
    (killOk : Nat → Bool) : List ReapAction × Nat :=
  let candidates := processes.filter (fun p => matchesSignature signatures p.1)
  (candidates.map (fun p => ReapAction.killByIdentifier p.2),
    (candidates.filter (fun p => killOk p.2)).length)

/-! ### Claim theorems for the orchestrator and reaper -/

/-- C1: for every positive `maxSessions = N`, if every attempt for every
sequence number fails all of its retries, the orchestrator loop performs
exactly `N` advances and terminates in the `EXHAUSTED` state with
`sessionsCompleted = 0` in the run summary. -/
theorem claim_C1_exhausted_run (cfg : RunConfig) (o : Nat → Nat → SessionOutcome)
    (cp : Nat → Bool) (hN : 0 < cfg.maxSessions)
    (hfail : ∀ s r, (o s r).isFail = true) :
    (runOrchestrator cfg o cp true true).final = .EXHAUSTED ∧
    (runOrchestrator cfg o cp true true).advancedCount = cfg.maxSessions ∧
    (runOrchestrator cfg o cp true true).sessionsCompleted = 0 := by
  have hrun : runOrchestrator cfg o cp true true
      = runLoop cfg o cp (standardFuel cfg) 0 0 Counters.init := by
    simp [runOrchestrator]
  obtain ⟨t, htr, hsim, hadv, hcomp, hatt, hfl, hreap, hflag⟩ :=
    runLoop_sim cfg o cp (standardFuel cfg) 0 0 Counters.init (by omega)
      (by simp only [standardFuel]; omega)
  obtain ⟨hf, hend, hsucc⟩ := Sim.all_fail hfail hsim (by omega)
  rw [hrun]
  refine ⟨hf, ?_, ?_⟩
  · rw [hadv, hend]
    simp [Counters.init]
  · rw [hcomp, hsucc]
    simp [Counters.init]

theorem claim_C1_witness :
    (runOrchestrator ⟨2, 1⟩ (fun _ _ => .Failed) (fun _ => true) true true).final
        = .EXHAUSTED ∧
    (runOrchestrator ⟨2, 1⟩ (fun _ _ => .Failed) (fun _ => true) true true).advancedCount
        = (⟨2, 1⟩ : RunConfig).maxSessions ∧
    (runOrchestrator ⟨2, 1⟩ (fun _ _ => .Failed) (fun _ => true) true true).sessionsCompleted
        = 0 :=
  claim_C1_exhausted_run ⟨2, 1⟩ (fun _ _ => .Failed) (fun _ => true)
    (by decide) (fun _ _ => rfl)

/-- C2: if any attempt reports `Succeeded` with the completion flag true,
the orchestrator halts immediately in `ALL_PASSED` — the completing
attempt is the last one performed — the returned completion flag is true,
and `sessionsAttempted` strictly below `maxSessions` is possible. -/
theorem claim_C2_early_halt (cfg : RunConfig) (o : Nat → Nat → SessionOutcome)
    (cp : Nat → Bool)
    (hcomplete : ∃ rec ∈ (runOrchestrator cfg o cp true true).trace,
        rec.outcome = .Succeeded true) :
    (runOrchestrator cfg o cp true true).final = .ALL_PASSED ∧
    (runOrchestrator cfg o cp true true).completionFlag = true ∧
    (∃ rec, (runOrchestrator cfg o cp true true).trace.getLast? = some rec ∧
        rec.outcome = .Succeeded true) ∧
    (∀ rec ∈ (runOrchestrator cfg o cp true true).trace.dropLast,
        rec.outcome ≠ .Succeeded true) ∧
    (∃ cfg2 o2 cp2,
        (runOrchestrator cfg2 o2 cp2 true true).completionFlag = true ∧
        (runOrchestrator cfg2 o2 cp2 true true).sessionsAttempted
          < cfg2.maxSessions) := by
  have hrun : runOrchestrator cfg o cp true true
      = runLoop cfg o cp (standardFuel cfg) 0 0 Counters.init := by
    simp [runOrchestrator]
  obtain ⟨t, htr, hsim, hadv, hcomp, hatt, hfl, hreap, hflag⟩ :=
    runLoop_sim cfg o cp (standardFuel cfg) 0 0 Counters.init (by omega)
      (by simp only [standardFuel]; omega)
  have htr2 : (runLoop cfg o cp (standardFuel cfg) 0 0 Counters.init).trace = t := by
    rw [htr]; simp [Counters.init]
  rw [hrun] at hcomplete ⊢
  rw [htr2] at hcomplete
  obtain ⟨hf, hlast, hdrop⟩ := Sim.succ_true_halts hsim hcomplete
  refine ⟨hf, ?_, ?_, ?_, ?_⟩
  · rw [hflag, hf]; rfl
  · rw [htr2]; exact hlast
  · rw [htr2]; exact hdrop
  · refine ⟨⟨2, 1⟩, fun _ _ => .Succeeded true, fun _ => true, by decide, by decide⟩

theorem claim_C2_witness :
    (runOrchestrator ⟨3, 1⟩ (fun _ _ => .Succeeded true) (fun _ => true)
        true true).final = .ALL_PASSED ∧
    (runOrchestrator ⟨3, 1⟩ (fun _ _ => .Succeeded true) (fun _ => true)
        true true).completionFlag = true :=
  have h := claim_C2_early_halt ⟨3, 1⟩ (fun _ _ => .Succeeded true) (fun _ => true)
    ⟨⟨0, 0, .Succeeded true⟩, by decide, rfl⟩
  ⟨h.1, h.2.1⟩

/-- C3: retry counts recorded by the orchestrator never exceed 2; a
`Failed` or `TimedOut` attempt with retry count below 2 is re-run at the
same sequence number with the retry count incremented; a failing attempt
at retry count 2 is followed, if by anything, by the next sequence number
at retry count 0; and the run never aborts (`FATAL`) over attempt
failures. -/
theorem claim_C3_retry_discipline (cfg : RunConfig) (o : Nat → Nat → SessionOutcome)
    (cp : Nat → Bool) :
    (∀ rec ∈ (runOrchestrator cfg o cp true true).trace, rec.retry ≤ 2) ∧
    (∀ i a, (runOrchestrator cfg o cp true true).trace[i]? = some a →
        a.outcome.isFail = true → a.retry < 2 →
        ∃ b, (runOrchestrator cfg o cp true true).trace[i + 1]? = some b ∧
          b.seq = a.seq ∧ b.retry = a.retry + 1) ∧
    (∀ i a b, (runOrchestrator cfg o cp true true).trace[i]? = some a →
        (runOrchestrator cfg o cp true true).trace[i + 1]? = some b →
        a.outcome.isFail = true → a.retry = 2 →
        b.seq = a.seq + 1 ∧ b.retry = 0) ∧
    (runOrchestrator cfg o cp true true).final ≠ .FATAL := by
  have hrun : runOrchestrator cfg o cp true true
      = runLoop cfg o cp (standardFuel cfg) 0 0 Counters.init := by
    simp [runOrchestrator]
  obtain ⟨t, htr, hsim, hadv, hcomp, hatt, hfl, hreap, hflag⟩ :=
    runLoop_sim cfg o cp (standardFuel cfg) 0 0 Counters.init (by omega)
      (by simp only [standardFuel]; omega)
  have htr2 : (runLoop cfg o cp (standardFuel cfg) 0 0 Counters.init).trace = t := by
    rw [htr]; simp [Counters.init]
  rw [hrun]
  rw [htr2]
  refine ⟨Sim.retry_le_two hsim (by omega), ?_, ?_, Sim.final_ne_fatal hsim⟩
  · intro i a ha hafail halt
    exact (Sim.fail_step hsim (by omega) i a ha hafail).1 halt
  · intro i a b ha hb hafail heq
    exact (Sim.fail_step hsim (by omega) i a ha hafail).2 heq b hb

theorem claim_C3_witness :
    ∃ b, (runOrchestrator ⟨1, 1⟩ (fun _ _ => .Failed) (fun _ => true)
        true true).trace[1]? = some b ∧
      b.seq = (⟨0, 0, SessionOutcome.Failed⟩ : AttemptRecord).seq ∧
      b.retry = (⟨0, 0, SessionOutcome.Failed⟩ : AttemptRecord).retry + 1 :=
  (claim_C3_retry_discipline ⟨1, 1⟩ (fun _ _ => .Failed) (fun _ => true)).2.1
    0 ⟨0, 0, .Failed⟩ (by decide) rfl (by decide)

/-- C4 as the spec-modelled state machine actually behaves (amended): the
checkpoint validator is invoked exactly once per advance count in
`[1, advancedCount]` that is a multiple of `checkpointInterval` and
strictly below `maxSessions` (so in particular only while the advanced
count is strictly below `maxSessions`); this equals
`advancedCount / checkpointInterval` whenever the run ends with
`advancedCount < maxSessions`; a failing checkpoint is recorded as a
warning; and the checkpoint results never alter the state machine: runs
differing only in the checkpoint oracle agree on everything except the
warning counter. -/
theorem claim_C4_checkpoint_cadence (cfg : RunConfig)
    (o : Nat → Nat → SessionOutcome) (cp cp2 : Nat → Bool)
    (hK : 1 ≤ cfg.checkpointInterval) :
    (runOrchestrator cfg o cp true true).advancedCount ≤ cfg.maxSessions ∧
    (runOrchestrator cfg o cp true true).checkpointCount
      = cpCount cfg (runOrchestrator cfg o cp true true).advancedCount ∧
    ((runOrchestrator cfg o cp true true).advancedCount < cfg.maxSessions →
      (runOrchestrator cfg o cp true true).checkpointCount
        = (runOrchestrator cfg o cp true true).advancedCount
            / cfg.checkpointInterval) ∧
    (runOrchestrator cfg o cp true true).warningCount
      = warnCount cfg cp (runOrchestrator cfg o cp true true).advancedCount ∧
    ResultEqExceptWarn (runOrchestrator cfg o cp true true)
      (runOrchestrator cfg o cp2 true true) := by
  have hrun : runOrchestrator cfg o cp true true
      = runLoop cfg o cp (standardFuel cfg) 0 0 Counters.init := by
    simp [runOrchestrator]
  have hrun2 : runOrchestrator cfg o cp2 true true
      = runLoop cfg o cp2 (standardFuel cfg) 0 0 Counters.init := by
    simp [runOrchestrator]
  obtain ⟨hle, hcp, hw⟩ :=
    runLoop_checkpoints cfg o cp (standardFuel cfg) 0 0 Counters.init
      (by omega) (by simp only [standardFuel]; omega) (by omega)
      (by simp [Counters.init]) (by simp [Counters.init, cpCount])
      (by simp [Counters.init, warnCount])
  rw [hrun, hrun2]
  refine ⟨hle, hcp, ?_, hw, ?_⟩
  · intro hlt
    rw [hcp, cpCount_eq_div cfg hK _ hle]
    have : min (runLoop cfg o cp (standardFuel cfg) 0 0 Counters.init).advancedCount
        (cfg.maxSessions - 1)
        = (runLoop cfg o cp (standardFuel cfg) 0 0 Counters.init).advancedCount := by
      omega
    rw [this]
  · exact runLoop_cp_irrelevant cfg o cp cp2 (standardFuel cfg) 0 0
      Counters.init Counters.init ⟨rfl, rfl, rfl, rfl, rfl, rfl, rfl⟩

theorem claim_C4_witness :
    (runOrchestrator ⟨3, 2⟩ (fun s _ => if s = 0 then .Succeeded false
        else .Succeeded true) (fun _ => true) true true).checkpointCount
      = (runOrchestrator ⟨3, 2⟩ (fun s _ => if s = 0 then .Succeeded false
          else .Succeeded true) (fun _ => true) true true).advancedCount
          / (⟨3, 2⟩ : RunConfig).checkpointInterval :=
  (claim_C4_checkpoint_cadence ⟨3, 2⟩
      (fun s _ => if s = 0 then .Succeeded false else .Succeeded true)
      (fun _ => true) (fun _ => true) (by decide)).2.2.1 (by decide)

/-- C4 as frozen is false on the spec-modelled state machine: with
`maxSessions = 1`, `checkpointInterval = 1` and every attempt failing, the
run performs one advance, so the claimed count
`floor(advancedCount / checkpointInterval) = 1`, yet the checkpoint
validator is never invoked, because the sole advance reaches
`advancedCount = maxSessions` and invocations are restricted to
`advancedCount < maxSessions`. -/
theorem claim_C4_counterexample :
    (runOrchestrator ⟨1, 1⟩ (fun _ _ => .Failed) (fun _ => true)
        true true).advancedCount = 1 ∧
    (runOrchestrator ⟨1, 1⟩ (fun _ _ => .Failed) (fun _ => true)
        true true).checkpointCount = 0 ∧
    (runOrchestrator ⟨1, 1⟩ (fun _ _ => .Failed) (fun _ => true)
        true true).advancedCount / (⟨1, 1⟩ : RunConfig).checkpointInterval = 1 := by
  refine ⟨by decide, by decide, by decide⟩

/-- C5: the reaper terminates only processes whose command name
case-insensitively contains a configured signature, each individually by
its own identifier; it never issues a blanket kill-by-name; and on the
spec scenario — signatures `{"helper"}`, processes `("helper-agent", 101)`
and `("unrelated", 202)` — it terminates exactly identifier 101 and
returns count 1. -/
theorem claim_C5_reaper_safety (signatures : List String)
    (processes : List (String × Nat)) (killOk : Nat → Bool) :
    (∀ a ∈ (reap signatures processes killOk).1,
        ∃ p ∈ processes, a = ReapAction.killByIdentifier p.2 ∧
          matchesSignature signatures p.1 = true) ∧
    (∀ name, ReapAction.killAllByName name ∉ (reap signatures processes killOk).1) ∧
    (reap ["helper"] [("helper-agent", 101), ("unrelated", 202)] (fun _ => true)).1
      = [ReapAction.killByIdentifier 101] ∧
    (reap ["helper"] [("helper-agent", 101), ("unrelated", 202)] (fun _ => true)).2
      = 1 := by
  refine ⟨?_, ?_, by decide, by decide⟩
  · intro a ha
    simp only [reap] at ha
    obtain ⟨p, hp, hpa⟩ := List.mem_map.mp ha
    obtain ⟨hmem, hmatch⟩ := List.mem_filter.mp hp
    exact ⟨p, hmem, hpa.symm, hmatch⟩
  · intro name hmem
    simp only [reap] at hmem
    obtain ⟨p, hp, hpa⟩ := List.mem_map.mp hmem
    simp at hpa

theorem claim_C5_witness :
    ∃ p ∈ [("helper-agent", 101), ("unrelated", 202)],
      ReapAction.killByIdentifier 101 = ReapAction.killByIdentifier p.2 ∧
      matchesSignature ["helper"] p.1 = true :=
  (claim_C5_reaper_safety ["helper"] [("helper-agent", 101), ("unrelated", 202)]
      (fun _ => true)).1 (ReapAction.killByIdentifier 101) (by decide)

/-- C6: for every finished run, `successRate` equals
`sessionsCompleted / sessionsAttempted` with the zero-attempts case
defined as exactly 0 (the model computes in `ℚ`, where the formula is
total — no NaN or division error exists), and the rate always lies in
`[0, 1]`. -/
theorem claim_C6_success_rate (cfg : RunConfig) (o : Nat → Nat → SessionOutcome)
    (cp : Nat → Bool) (ws mf : Bool) :
    (runOrchestrator cfg o cp ws mf).successRate
      = (if (runOrchestrator cfg o cp ws mf).sessionsAttempted = 0 then 0
         else ((runOrchestrator cfg o cp ws mf).sessionsCompleted : ℚ)
           / ((runOrchestrator cfg o cp ws mf).sessionsAttempted : ℚ)) ∧
    0 ≤ (runOrchestrator cfg o cp ws mf).successRate ∧
    (runOrchestrator cfg o cp ws mf).successRate ≤ 1 := by
  have hcs : ∀ R : RunResult,
      R.successRate = (if R.sessionsAttempted = 0 then 0
        else (R.sessionsCompleted : ℚ) / (R.sessionsAttempted : ℚ)) →
      R.sessionsCompleted ≤ R.sessionsAttempted →
      R.successRate = (if R.sessionsAttempted = 0 then 0
        else (R.sessionsCompleted : ℚ) / (R.sessionsAttempted : ℚ)) ∧
      0 ≤ R.successRate ∧ R.successRate ≤ 1 := by
    intro R heq hle
    refine ⟨heq, ?_, ?_⟩
    · rw [heq]
      split
      · exact le_refl 0
      · positivity
    · rw [heq]
      split
      · exact zero_le_one
      · rename_i hne
        rw [div_le_one (by positivity)]
        exact_mod_cast hle
  by_cases hpre : ws && mf
  · have hrun : runOrchestrator cfg o cp ws mf
        = runLoop cfg o cp (standardFuel cfg) 0 0 Counters.init := by
      simp [runOrchestrator, hpre]
    obtain ⟨f, b, st2, hfin⟩ :=
      runLoop_is_finalize cfg o cp (standardFuel cfg) 0 0 Counters.init
    obtain ⟨t, htr, hsim, hadv, hcomp, hatt, hfl, hreap, hflag⟩ :=
      runLoop_sim cfg o cp (standardFuel cfg) 0 0 Counters.init (by omega)
        (by simp only [standardFuel]; omega)
    have hle : (runLoop cfg o cp (standardFuel cfg) 0 0 Counters.init).sessionsCompleted
        ≤ (runLoop cfg o cp (standardFuel cfg) 0 0 Counters.init).sessionsAttempted := by
      rw [hcomp, hatt]
      have := Sim.succ_le_start hsim
      simp [Counters.init]
      simpa using this
    rw [hrun]
    refine hcs _ ?_ hle
    rw [hfin]
    simp [finalize]
  · have hrun : runOrchestrator cfg o cp ws mf
        = finalize .FATAL false Counters.init := by
      simp only [runOrchestrator]
      rw [if_neg hpre]
    rw [hrun]
    refine hcs _ ?_ ?_
    · simp [finalize]
    · simp [finalize, Counters.init]

/-! ## Part II: the pattern validators and the UI comparison script

These definitions are translated from the provided Python sources.
Regular-expression search (`re.search`, `re.finditer`) and filesystem
enumeration (`Path.rglob`, file reading) are taken as oracle parameters;
everything else — the pattern tables, the per-line loops, the violation
records, the scoring and the exit logic — follows the Python directly. -/

/-- ASCII-wise lowercasing, standing for Python's `str.lower()`. -/
def lowerStr (s : String) : String :=
  String.mk (s.toList.map Char.toLower)

/-- Substring test, standing for Python's `needle in hay`. -/
def strContains (hay needle : String) : Bool :=
  containsSublist needle.toList hay.toList

/-- `Violation` dataclass of scripts/validators/dgts-validator.py. -/
structure DgtsViolation where
  file : String
  line : Nat
  category : String
  pattern : String
  message : String
  content : String
deriving DecidableEq, Repr

/-- `GAMING_PATTERNS` of dgts-validator.py: category name to list of
(regular expression, message) pairs, in source order. -/
def GAMING_PATTERNS : List (String × List (String × String)) :=
  [("test_gaming",
    [("assert\\s+True\\s*$", "Meaningless assertion: assert True"),
     ("assert\\s+1\\s*==\\s*1", "Tautological test: assert 1 == 1"),
     ("assert\\s+[\x27\\\"].*[\x27\\\"]\\s*==\\s*[\x27\\\"].*[\x27\\\"]",
      "String equality that always passes"),
     ("@pytest\\.mark\\.skip", "Skipped test hiding failures"),
     ("@unittest\\.skip", "Skipped test hiding failures"),
     ("return\\s*[\x27\\\"]mock", "Mock data return"),
     ("return\\s*\\\x7b\\s*[\x27\\\"]fake", "Fake data return")]),
   ("code_gaming",
    [("#\\s*validation", "Commented validation rule"),
     ("if\\s+False\\s*:", "Disabled code block"),
     ("pass\\s*#\\s*TODO", "Stub function with TODO"),
     ("void\\s+_error", "Error silencing pattern"),
     ("except\\s*:\\s*pass", "Silent exception swallowing"),
     ("except.*:\\s*\\.\\.\\.", "Ellipsis exception handler")]),
   ("feature_faking",
    [("def\\s+\\w+\\([^)]*\\)\\s*:\\s*pass\\s*$", "Empty function implementation"),
     ("return\\s*None\\s*#", "None return with comment (likely stub)"),
     ("raise\\s+NotImplementedError", "NotImplementedError (incomplete)"),
     ("TODO:\\s*implement", "TODO marker for unimplemented code"),
     ("FIXME:", "FIXME marker")]),
   ("mock_patterns",
    [("mock_data\\s*=", "Mock data variable"),
     ("fake_\\w+\\s*=", "Fake variable naming"),
     ("dummy_\\w+\\s*=", "Dummy variable naming"),
     ("test@test\\.com", "Placeholder test email"),
     ("example@example\\.com", "Placeholder example email"),
     ("[\x27\\\"]John\\s+Doe[\x27\\\"]", "Placeholder name"),
     ("[\x27\\\"]Jane\\s+Doe[\x27\\\"]", "Placeholder name"),
     ("lorem\\s+ipsum", "Lorem ipsum placeholder"),
     ("from\\s+faker\\s+import", "Faker library in production code")])]

/-- `scan_file` of dgts-validator.py: for each line (1-based), for each
category in table order, for each (pattern, message), report a violation
when the regular-expression oracle (`re.search` with `IGNORECASE`)
matches; the recorded content is the stripped line truncated to 80
characters. -/
def dgts_scan_file (rmatch : String → String → Bool) (filepath : String)
    (content : String) : List DgtsViolation :=
  (content.splitOn "\n").enum.flatMap (fun pr =>
    GAMING_PATTERNS.flatMap (fun cat =>
      cat.2.filterMap (fun pm =>
        if rmatch pm.1 pr.2 then
          some { file := filepath, line := pr.1 + 1, category := cat.1,
                 pattern := pm.1, message := pm.2,
                 content := pr.2.trim.take 80 }
        else none)))

/-- `scan_directory` of dgts-validator.py: scans each enumerated file in
turn and extends the accumulated violation list.  The `files` list stands
for the (path, content) pairs the `rglob` enumeration yields after the
skip-directory filter. -/
def dgts_scan_directory (rmatch : String → String → Bool)
    (files : List (String × String)) : List DgtsViolation :=
  files.flatMap (fun f => dgts_scan_file rmatch f.1 f.2)

/-- The category-weight lookup `weights.get(v.category, 0.2)` inside
`calculate_gaming_score` of dgts-validator.py. -/
def dgts_weight (category : String) : ℚ :=
  if category = "test_gaming" then 3/10
  else if category = "code_gaming" then 1/4
  else if category = "feature_faking" then 1/4
  else if category = "mock_patterns" then 1/5
  else 1/5

/-- `calculate_gaming_score` of dgts-validator.py: 0 when no files were
counted, otherwise the category-weighted violation sum normalized by the
file count and clamped at 1. -/
def calculate_gaming_score (violations : List DgtsViolation)
    (total_files : Int) : ℚ :=
  if total_files = 0 then 0
  else min 1 ((violations.map (fun v => dgts_weight v.category)).sum
    / ((max total_files 1 : Int) : ℚ))

/-- The observable outcome of a validator's `main`: the process exit code,
the error message printed to standard error (if any), and whether a scan
was performed at all. -/
structure CliResult where
  exitCode : Nat
  errorMessage : Option String
  scanPerformed : Bool
deriving DecidableEq, Repr

/-- `main` of dgts-validator.py: a nonexistent path fails immediately with
a descriptive error and exit code 1 before any file is counted or
scanned; otherwise the scan runs and the exit code reflects the score
threshold comparison. -/
def dgts_main (pathExists : Bool) (rmatch : String → String → Bool)
    (files : List (String × String)) (total_files : Int) (threshold : ℚ) :
    CliResult :=
  if pathExists = false then
    { exitCode := 1, errorMessage := some "Error: Path does not exist",
      scanPerformed := false }
  else
    let violations := dgts_scan_directory rmatch files
    let score := calculate_gaming_score violations total_files
    { exitCode := if score ≤ threshold then 0 else 1,
      errorMessage := none, scanPerformed := true }

/-- `Violation` dataclass of scripts/validators/zero-tolerance-validator.py. -/
structure ZtViolation where
  file : String
  line : Nat
  category : String
  message : String
  content : String
  severity : String
deriving DecidableEq, Repr

/-- `EXT_TO_LANG` of zero-tolerance-validator.py. -/
def EXT_TO_LANG : List (String × String) :=
  [(".ts", "typescript"), (".tsx", "typescript"), (".js", "javascript"),
   (".jsx", "javascript"), (".py", "python")]

/-- `ZERO_TOLERANCE_PATTERNS` of zero-tolerance-validator.py: language to
category to (regular expression, message) pairs, in source order. -/
def ZERO_TOLERANCE_PATTERNS :
    List (String × List (String × List (String × String))) :=
  [("typescript",
    [("console_log",
      [("console\\.(log|error|warn|info|debug)\\s*\\(",
        "console.* statement - use proper logger")]),
     ("error_handling",
      [("catch\\s*\\\x7b", "Empty catch block without error parameter"),
       ("catch\\s*\\(\\s*_", "Unused error parameter (prefixed with _)"),
       ("catch\\s*\\([^)]*\\)\\s*\\\x7b\\s*\\\x7d", "Empty catch block"),
       ("void\\s+_?error", "Void error anti-pattern")]),
     ("type_safety",
      [(":\\s*any\\b", "Explicit \x27any\x27 type - use proper typing"),
       ("as\\s+any\\b", "Type assertion to \x27any\x27"),
       ("@ts-ignore", "@ts-ignore comment - fix the type error"),
       ("@ts-nocheck", "@ts-nocheck - type checking disabled")])]),
   ("python",
    [("error_handling",
      [("except\\s*:\\s*$", "Bare except clause"),
       ("except\\s*:\\s*pass", "Silent exception swallowing"),
       ("except.*:\\s*\\.\\.\\.", "Ellipsis exception handler")]),
     ("debug_statements",
      [("^\\s*print\\s*\\((?!.*#\\s*debug)", "Print statement (use logging)"),
       ("breakpoint\\s*\\(\\)", "Breakpoint left in code"),
       ("pdb\\.set_trace\\(\\)", "PDB debugger left in code"),
       ("import\\s+pdb", "PDB import left in code")]),
     ("type_safety",
      [("#\\s*type:\\s*ignore", "Type ignore comment"),
       ("Any\\s*\\]", "Any type in annotation")])]),
   ("javascript",
    [("console_log",
      [("console\\.(log|error|warn|info|debug)\\s*\\(", "console.* statement")]),
     ("error_handling",
      [("catch\\s*\\\x7b", "Empty catch block without error parameter"),
       ("catch\\s*\\([^)]*\\)\\s*\\\x7b\\s*\\\x7d", "Empty catch block")])])]

/-- The suffix of a path, standing for CPython's `Path.suffix`: the final
dotted extension of the last path component, empty for names without a
dot and for hidden files whose only dot is the leading one. -/
def pathSuffix (p : String) : String :=
  let name := (p.splitOn "/").getLastD ""
  match name.splitOn "." with
  | [] => ""
  | [_] => ""
  | first :: rest =>
    if first = "" && rest.length == 1 then ""
    else "." ++ (first :: rest).getLastD ""

/-- `get_language` of zero-tolerance-validator.py. -/
def get_language (filepath : String) : Option String :=
  EXT_TO_LANG.lookup (lowerStr (pathSuffix filepath))

/-- `scan_file` of zero-tolerance-validator.py: files without a known
language are skipped; otherwise each line is matched against each
category's patterns (`re.search`, case-sensitive) and violations carry the
fixed severity CRITICAL. -/
def zt_scan_file (rmatch : String → String → Bool) (filepath : String)
    (content : String) : List ZtViolation :=
  match get_language filepath with
  | none => []
  | some lang =>
    let patterns := (ZERO_TOLERANCE_PATTERNS.lookup lang).getD []
    (content.splitOn "\n").enum.flatMap (fun pr =>
      patterns.flatMap (fun cat =>
        cat.2.filterMap (fun pm =>
          if rmatch pm.1 pr.2 then
            some { file := filepath, line := pr.1 + 1, category := cat.1,
                   message := pm.2, content := pr.2.trim.take 80,
                   severity := "CRITICAL" }
          else none)))

/-- `scan_directory` of zero-tolerance-validator.py. -/
def zt_scan_directory (rmatch : String → String → Bool)
    (files : List (String × String)) : List ZtViolation :=
  files.flatMap (fun f => zt_scan_file rmatch f.1 f.2)

/-- `main` of zero-tolerance-validator.py: a nonexistent path fails
immediately with a descriptive error and exit code 1 before any scan;
otherwise the exit code is 0 exactly when no violation was found. -/
def zt_main (pathExists : Bool) (rmatch : String → String → Bool)
    (files : List (String × String)) : CliResult :=
  if pathExists = false then
    { exitCode := 1, errorMessage := some "Error: Path does not exist",
      scanPerformed := false }
  else
    let violations := zt_scan_directory rmatch files
    { exitCode := if violations.length = 0 then 0 else 1,
      errorMessage := none, scanPerformed := true }

/-- An issue dictionary produced by the checks of
skills/boss-ui-ux/scripts/compare_to_captured.py. -/
structure UiIssue where
  type : String
  line : Nat
  issue : String
  found : String
  suggestion : String
deriving DecidableEq, Repr

/-- One entry of a captured color list; the `hex` key is optional. -/
structure CapturedColorEntry where
  hex : Option String
deriving DecidableEq, Repr

/-- The captured color data (`colors-extracted.json`) as
`check_color_consistency` reads it. -/
structure CapturedColors where
  backgrounds : List CapturedColorEntry
  texts : List CapturedColorEntry
  borders : List CapturedColorEntry
deriving DecidableEq, Repr

/-- The captured spacing data (`spacing.json`) as `check_spacing_patterns`
reads it: (padding string, count) pairs. -/
structure CapturedSpacing where
  paddings : List (String × Nat)
deriving DecidableEq, Repr

/-- The captured reference data loaded by `load_captured_data`.  The
component catalog is never inspected by the checks, so its entries are
left as opaque strings. -/
structure CapturedData where
  colors : CapturedColors
  components : List String
  spacing : CapturedSpacing
deriving DecidableEq, Repr

/-- The known good hex colors collected at the top of
`check_color_consistency`. -/
def good_hex_colors (captured : CapturedColors) : List String :=
  (captured.backgrounds ++ captured.texts ++ captured.borders).filterMap
    (fun c => c.hex.map lowerStr)

/-- The 1-based line of a character offset,
`content[:offset].count(chr(10)) + 1` in the Python. -/
def lineOfOffset (content : String) (off : Nat) : Nat :=
  ((content.toList.take off).count (Char.ofNat 10)) + 1

/-- `check_color_consistency` of compare_to_captured.py.  The two
regular-expression extractions (`extract_colors_from_code`,
`extract_tailwind_colors`) are oracle parameters yielding (line, match)
pairs; the check itself emits only warnings. -/
def check_color_consistency (extractHex extractTw : String → List (Nat × String))
    (content : String) (captured : CapturedColors) : List UiIssue :=
  let good := good_hex_colors captured
  let hexIssues := (extractHex content).filterMap (fun lc =>
    if good.contains (lowerStr lc.2) then none
    else some { type := "warning", line := lc.1,
                issue := "Hardcoded color not in captured palette",
                found := lc.2,
                suggestion := "Use Tailwind class from captured colors" })
  let boss_prefixes := ["space-", "neon-", "gray-"]
  let twIssues := (extractTw content).filterMap (fun lc =>
    let is_boss := boss_prefixes.any (fun pre =>
      strContains lc.2 ("-" ++ pre) || lc.2.startsWith ("bg-" ++ pre))
    if is_boss = false && strContains lc.2 "gray-" = false then
      some { type := "warning", line := lc.1,
             issue := "Non-BOSS color class", found := lc.2,
             suggestion := "Use space-*, neon-*, or gray-* colors" }
    else none)
  hexIssues ++ twIssues

/-- `check_component_classes` of compare_to_captured.py.  `cardPattern`
stands for `re.search(r"rounded-xl.*border.*p-[46]", content)` and
`buttonMatches` for the button-tag `finditer`, yielding (start offset,
matched text) pairs; the check emits only suggestions, and the captured
component catalog is never consulted. -/
def check_component_classes (cardPattern : String → Bool)
    (buttonMatches : String → List (Nat × String)) (content : String)
    (captured_components : List String) : List UiIssue :=
  let cardIssues :=
    if strContains content "rounded-xl" && strContains content "border"
        && strContains content "bg-" then
      if strContains content ".card" = false
          && strContains content "className=\"card" = false
          && strContains content "className=\x27card" = false then
        if cardPattern content then
          [{ type := "suggestion", line := 0,
             issue := "Possible card pattern without .card class",
             found := "rounded-xl border p-* pattern",
             suggestion := "Consider using className=\"card\" for consistency" }]
        else []
      else []
    else []
  let buttonIssues := (buttonMatches content).filterMap (fun m =>
    if strContains m.2 "btn-" then none
    else some { type := "suggestion", line := lineOfOffset content m.1,
                issue := "Button without btn-* class",
                found := m.2.take 50,
                suggestion := "Use btn-primary, btn-secondary, etc." })
  cardIssues ++ buttonIssues

/-- `check_spacing_patterns` of compare_to_captured.py.  `paddingMatches`
stands for `re.finditer(r"p-(\\d+)", content)`, yielding (start offset,
digit group) pairs; the check emits only info issues (the
`common_paddings` set is computed but never used by the issue loop,
exactly as in the source). -/
def check_spacing_patterns (paddingMatches : String → List (Nat × String))
    (content : String) (captured_spacing : CapturedSpacing) : List UiIssue :=
  let common_paddings := captured_spacing.paddings.filterMap (fun pc =>
    if strContains pc.1 "px" then some pc.1 else none)
  (paddingMatches content).filterMap (fun m =>
    if ["2", "3", "4", "6", "8"].contains m.2 then none
    else some { type := "info", line := lineOfOffset content m.1,
                issue := "Uncommon padding value",
                found := "p-" ++ m.2,
                suggestion := "Common BOSS paddings: p-2, p-3, p-4, p-6, p-8" })

/-- The per-file summary dictionary of `validate_file`. -/
structure UiValidationSummary where
  errors : Nat
  warnings : Nat
  suggestions : Nat
deriving DecidableEq, Repr

/-- The result dictionary of `validate_file`. -/
structure UiValidationResult where
  file : String
  issues : List UiIssue
  passed : Bool
  summary : UiValidationSummary
deriving DecidableEq, Repr

/-- `validate_file` of compare_to_captured.py: run the three checks,
collect their issues, and pass exactly when no issue has type error. -/
def validate_file (extractHex extractTw : String → List (Nat × String))
    (cardPattern : String → Bool)
    (buttonMatches paddingMatches : String → List (Nat × String))
    (filepath : String) (content : String) (captured : CapturedData) :
    UiValidationResult :=
  let issues :=
    check_color_consistency extractHex extractTw content captured.colors
      ++ check_component_classes cardPattern buttonMatches content
          captured.components
      ++ check_spacing_patterns paddingMatches content captured.spacing
  let errors := issues.filter (fun i => i.type == "error")
  let warnings := issues.filter (fun i => i.type == "warning")
  { file := filepath, issues := issues,
    passed := errors.length == 0,
    summary := { errors := errors.length, warnings := warnings.length,
                 suggestions := issues.length - errors.length - warnings.length } }

/-! ### Claim theorems for the validators -/

/-- C7: with a nonexistent input path, both validators fail immediately —
descriptive error, exit code 1, no scan performed — and the orchestrator's
precondition check likewise fails fatally before any session is
attempted. -/
theorem claim_C7_missing_path_fails_fast (rmatch : String → String → Bool)
    (files : List (String × String)) (total_files : Int) (threshold : ℚ)
    (rmatchZ : String → String → Bool) (filesZ : List (String × String))
    (cfg : RunConfig) (o : Nat → Nat → SessionOutcome) (cp : Nat → Bool)
    (mf : Bool) :
    (dgts_main false rmatch files total_files threshold).exitCode = 1 ∧
    (dgts_main false rmatch files total_files threshold).scanPerformed = false ∧
    (dgts_main false rmatch files total_files threshold).errorMessage.isSome = true ∧
    (zt_main false rmatchZ filesZ).exitCode = 1 ∧
    (zt_main false rmatchZ filesZ).scanPerformed = false ∧
    (zt_main false rmatchZ filesZ).errorMessage.isSome = true ∧
    (runOrchestrator cfg o cp false mf).final = .FATAL ∧
    (runOrchestrator cfg o cp false mf).sessionsAttempted = 0 ∧
    (runOrchestrator cfg o cp false mf).trace = [] := by
  refine ⟨?_, ?_, ?_, ?_, ?_, ?_, ?_, ?_, ?_⟩ <;>
    simp [dgts_main, zt_main, runOrchestrator, finalize, Counters.init]

/-- C8: the pattern scanners are single-pass and stateless: a directory
scan is exactly the concatenation of independent per-file scans, so the
violations a file receives do not depend on what was scanned before it,
and scanning the same content twice yields two identical violation
lists. -/
theorem claim_C8_scanners_stateless (rmatch rmatchZ : String → String → Bool) :
    (∀ files f c, dgts_scan_directory rmatch (files ++ [(f, c)])
        = dgts_scan_directory rmatch files ++ dgts_scan_file rmatch f c) ∧
    (∀ f c, dgts_scan_directory rmatch [(f, c), (f, c)]
        = dgts_scan_file rmatch f c ++ dgts_scan_file rmatch f c) ∧
    (∀ files f c, zt_scan_directory rmatchZ (files ++ [(f, c)])
        = zt_scan_directory rmatchZ files ++ zt_scan_file rmatchZ f c) ∧
    (∀ f c, zt_scan_directory rmatchZ [(f, c), (f, c)]
        = zt_scan_file rmatchZ f c ++ zt_scan_file rmatchZ f c) := by
  refine ⟨?_, ?_, ?_, ?_⟩
  · intro files f c
    simp [dgts_scan_directory]
  · intro f c
    simp [dgts_scan_directory]
  · intro files f c
    simp [zt_scan_directory]
  · intro f c
    simp [zt_scan_directory]

/-- C9: the gaming score always lies in `[0, 1]`, and is exactly 0 when
the file count is 0. -/
theorem claim_C9_score_in_unit_interval (violations : List DgtsViolation)
    (total_files : Int) :
    0 ≤ calculate_gaming_score violations total_files ∧
    calculate_gaming_score violations total_files ≤ 1 ∧
    calculate_gaming_score violations 0 = 0 := by
  have hw : ∀ c, 0 ≤ dgts_weight c := by
    intro c
    unfold dgts_weight
    repeat' split
    all_goals norm_num
  have hsum : 0 ≤ (violations.map (fun v => dgts_weight v.category)).sum := by
    apply List.sum_nonneg
    intro x hx
    obtain ⟨v, hv, rfl⟩ := List.mem_map.mp hx
    exact hw _
  have hden : (0 : ℚ) < ((max total_files 1 : Int) : ℚ) := by
    have h1 : (0 : ℤ) < max total_files 1 :=
      lt_of_lt_of_le zero_lt_one (le_max_right total_files 1)
    exact_mod_cast h1
  refine ⟨?_, ?_, by simp [calculate_gaming_score]⟩
  · unfold calculate_gaming_score
    split
    · norm_num
    · exact le_min (by norm_num) (div_nonneg hsum (le_of_lt hden))
  · unfold calculate_gaming_score
    split
    · norm_num
    · exact min_le_left _ _

theorem check_color_consistency_types
    (extractHex extractTw : String → List (Nat × String)) (content : String)
    (captured : CapturedColors) :
    ∀ i ∈ check_color_consistency extractHex extractTw content captured,
      i.type = "warning" := by
  intro i hi
  simp only [check_color_consistency, List.mem_append] at hi
  rcases hi with hi | hi
  · obtain ⟨a, ha, heq⟩ := List.mem_filterMap.mp hi
    split at heq
    · simp at heq
    · injection heq with h
      rw [← h]
  · obtain ⟨a, ha, heq⟩ := List.mem_filterMap.mp hi
    split at heq
    · injection heq with h
      rw [← h]
    · simp at heq

theorem check_component_classes_types (cardPattern : String → Bool)
    (buttonMatches : String → List (Nat × String)) (content : String)
    (captured_components : List String) :
    ∀ i ∈ check_component_classes cardPattern buttonMatches content
        captured_components,
      i.type = "suggestion" := by
  intro i hi
  simp only [check_component_classes, List.mem_append] at hi
  rcases hi with hi | hi
  · split at hi
    · split at hi
      · split at hi
        · rw [List.mem_singleton] at hi
          rw [hi]
        · simp at hi
      · simp at hi
    · simp at hi
  · obtain ⟨a, ha, heq⟩ := List.mem_filterMap.mp hi
    split at heq
    · simp at heq
    · injection heq with h
      rw [← h]

theorem check_spacing_patterns_types
    (paddingMatches : String → List (Nat × String)) (content : String)
    (captured_spacing : CapturedSpacing) :
    ∀ i ∈ check_spacing_patterns paddingMatches content captured_spacing,
      i.type = "info" := by
  intro i hi
  simp only [check_spacing_patterns] at hi
  obtain ⟨a, ha, heq⟩ := List.mem_filterMap.mp hi
  split at heq
  · simp at heq
  · injection heq with h
    rw [← h]

/-- C10: `validate_file` always returns `passed = True`, because the three
checks emit only warning, suggestion and info issues — never an error —
so the error count is always zero. -/
theorem claim_C10_validate_always_passes
    (extractHex extractTw : String → List (Nat × String))
    (cardPattern : String → Bool)
    (buttonMatches paddingMatches : String → List (Nat × String))
    (filepath : String) (content : String) (captured : CapturedData) :
    (validate_file extractHex extractTw cardPattern buttonMatches paddingMatches
        filepath content captured).passed = true ∧
    (validate_file extractHex extractTw cardPattern buttonMatches paddingMatches
        filepath content captured).summary.errors = 0 ∧
    ∀ i ∈ (validate_file extractHex extractTw cardPattern buttonMatches
        paddingMatches filepath content captured).issues,
      i.type = "warning" ∨ i.type = "suggestion" ∨ i.type = "info" := by
  have htypes : ∀ i ∈
      check_color_consistency extractHex extractTw content captured.colors
        ++ check_component_classes cardPattern buttonMatches content
            captured.components
        ++ check_spacing_patterns paddingMatches content captured.spacing,
      i.type = "warning" ∨ i.type = "suggestion" ∨ i.type = "info" := by
    intro i hi
    rw [List.mem_append] at hi
    rcases hi with hi | hi
    · rw [List.mem_append] at hi
      rcases hi with hi | hi
      · exact Or.inl (check_color_consistency_types _ _ _ _ i hi)
      · exact Or.inr (Or.inl (check_component_classes_types _ _ _ _ i hi))
    · exact Or.inr (Or.inr (check_spacing_patterns_types _ _ _ i hi))
  have herr :
      (check_color_consistency extractHex extractTw content captured.colors
        ++ check_component_classes cardPattern buttonMatches content
            captured.components
        ++ check_spacing_patterns paddingMatches content captured.spacing).filter
        (fun i => i.type == "error") = [] := by
    rw [List.filter_eq_nil_iff]
    intro a ha
    rcases htypes a ha with h | h | h <;> simp [h]
  refine ⟨?_, ?_, ?_⟩
  · simp only [validate_file]
    rw [herr]
    rfl
  · simp only [validate_file]
    rw [herr]
    rfl
  · simp only [validate_file]
    exact htypes

theorem claim_C10_witness :
    (⟨"warning", 1, "Hardcoded color not in captured palette", "#123456",
        "Use Tailwind class from captured colors"⟩ : UiIssue).type = "warning"
      ∨ (⟨"warning", 1, "Hardcoded color not in captured palette", "#123456",
          "Use Tailwind class from captured colors"⟩ : UiIssue).type = "suggestion"
      ∨ (⟨"warning", 1, "Hardcoded color not in captured palette", "#123456",
          "Use Tailwind class from captured colors"⟩ : UiIssue).type = "info" :=
  (claim_C10_validate_always_passes (fun _ => [(1, "#123456")]) (fun _ => [])
      (fun _ => false) (fun _ => []) (fun _ => []) "component.tsx" ""
      ⟨⟨[], [], []⟩, [], ⟨[]⟩⟩).2.2 _ (by decide)

end PAI
